import Mathlib

/-!
# Sequencer registration: `msgServer.CreateSequencer`

A shallow embedding of `x/sequencer/keeper/msg_server_create_sequencer.go`.

The handler works on an `sdk.Context`; the four key-value stores it touches are
modelled as maps from string keys to optional records (`Ctx`).  The handler is a
function from a context and a message to the context it leaves behind together
with what the call ends in (`Outcome`): the Go result pair
`(*MsgCreateSequencerResponse, error)` with a nil or a non-nil error, or a
run-time panic.  Every `k.SetX(ctx, v)` of the source is a store update in the
order the source performs it, so the context given next to an error or a panic
is the context as the handler left it when it returned or panicked.
-/

namespace Keeper

/-! ## Errors -/

/-- The registered errors the handler can return, and `sdkerrors.Wrapf`. -/
inductive Error where
  | ErrSequencerExists
  | ErrUnknownRollappId
  | ErrSequencerNotPermissioned
  | ErrMaxSequencersLimit
  | ErrLogic
  | ErrInvalidType
  | ErrPackAny
  | DescriptionTooLong
  | Wrapf (base : Error) (text : String)
  deriving DecidableEq, Repr

/-- What a call ends in: the Go result pair with a nil error (`ok`), the pair with a
non-nil error (`error`), or a run-time panic (`panic`), which returns nothing. -/
inductive Outcome (α : Type) where
  | ok (response : α)
  | error (err : Error)
  | panic (text : String)
  deriving DecidableEq, Repr

/-- The text of the run-time panic of a nil-pointer dereference. -/
def nilDereference : String :=
  "runtime error: invalid memory address or nil pointer dereference"

/-! ## Machine integers -/

/-- Go conversion `int(u)` of a `uint64` on a 64-bit platform: the 64 bits of
`u` read as a two's complement number. -/
def uint64ToInt (u : Nat) : Int :=
  if u % 2 ^ 64 < 2 ^ 63 then ((u % 2 ^ 64 : Nat) : Int) else ((u % 2 ^ 64 : Nat) : Int) - 2 ^ 64

/-- The verb `%d` of Go's `fmt` applied to an `int`. -/
def fmtD (i : Int) : String :=
  match i with
  | Int.ofNat n => Nat.repr n
  | Int.negSucc n => "-" ++ Nat.repr (n + 1)

/-! ## Data model -/

/-- A value implementing `cryptotypes.PubKey`: its dynamic Go type, its protobuf
message name and its marshalled bytes. -/
structure PubKey where
  GoType : String
  MessageName : String
  Bytes : List Nat
  deriving DecidableEq, Repr

/-- The `interface{}` held in the cache of a `codectypes.Any`: nothing, a value
that implements `cryptotypes.PubKey`, or a value of some other Go type. -/
inductive CachedValue where
  | nil
  | pubKey (pk : PubKey)
  | other (goType : String)
  deriving DecidableEq, Repr

/-- The type `codectypes.Any`. -/
structure Any where
  TypeUrl : String
  Value : List Nat
  cachedValue : CachedValue
  deriving DecidableEq, Repr

/-- The type `types.Description`, with the fields the specification lists. -/
structure Description where
  Moniker : String
  Website : String
  SecurityContact : String
  Details : String
  deriving DecidableEq, Repr

/-- The field-level maximum lengths used by `Description.EnsureLength`. -/
structure DescriptionLimits where
  MaxMonikerLength : Nat
  MaxWebsiteLength : Nat
  MaxSecurityContactLength : Nat
  MaxDetailsLength : Nat
  deriving DecidableEq, Repr

/-- The list wrapper used for `Rollapp.PermissionedAddresses` and
`SequencersByRollapp.Sequencers`. -/
structure Sequencers where
  Addresses : List String
  deriving DecidableEq, Repr

/-- The fields of `rollapptypes.Rollapp` the handler reads.  `MaxSequencers` is a
`uint64`. -/
structure Rollapp where
  RollappId : String
  MaxSequencers : Nat
  PermissionedAddresses : Sequencers
  deriving DecidableEq, Repr

/-- The type `types.Sequencer`; `Pubkey` is a `*codectypes.Any`. -/
structure Sequencer where
  Creator : String
  SequencerAddress : String
  Pubkey : Option Any
  Description : Description
  RollappId : String
  deriving DecidableEq, Repr

/-- The type `types.OperatingStatus`, restricted to the two values the handler assigns. -/
inductive OperatingStatus where
  | Proposer
  | Inactive
  deriving DecidableEq, Repr

/-- The type `types.Scheduler`. -/
structure Scheduler where
  SequencerAddress : String
  Status : OperatingStatus
  deriving DecidableEq, Repr

/-- The type `types.SequencersByRollapp`: the roster of one rollapp. -/
structure SequencersByRollapp where
  RollappId : String
  Sequencers : Sequencers
  deriving DecidableEq, Repr

/-- The type `types.MsgCreateSequencer`; `Pubkey` is a `*codectypes.Any`. -/
structure MsgCreateSequencer where
  Creator : String
  SequencerAddress : String
  Pubkey : Option Any
  Description : Description
  RollappId : String
  deriving DecidableEq, Repr

deriving instance DecidableEq for Except

/-- The type `types.MsgCreateSequencerResponse`: an empty acknowledgment. -/
structure MsgCreateSequencerResponse where
  deriving DecidableEq, Repr

/-- The stores reachable from the `sdk.Context` of a call: the rollapp keeper's
directory, and the sequencer, roster and scheduler stores of this keeper. -/
structure Ctx where
  rollapps : String → Option Rollapp
  sequencers : String → Option Sequencer
  sequencersByRollapp : String → Option SequencersByRollapp
  schedulers : String → Option Scheduler

/-! ## Zero values -/

/-- The Go zero value of `rollapptypes.Rollapp`. -/
def Rollapp.zero : Rollapp :=
  { RollappId := "", MaxSequencers := 0, PermissionedAddresses := { Addresses := [] } }

/-- The Go zero value of `types.Sequencer`. -/
def Sequencer.zero : Sequencer :=
  { Creator := "", SequencerAddress := "", Pubkey := none,
    Description := { Moniker := "", Website := "", SecurityContact := "", Details := "" },
    RollappId := "" }

/-- The Go zero value of `types.SequencersByRollapp`. -/
def SequencersByRollapp.zero : SequencersByRollapp :=
  { RollappId := "", Sequencers := { Addresses := [] } }

/-! ## Collaborators -/

/-- Modelled from the spec: the Rollup Directory getter `rollappKeeper.GetRollapp`, which
is not in the handler's file; `lookup(rollupId) -> (Rollup, found)`, no side effects. -/
def GetRollapp (ctx : Ctx) (rollappId : String) : Rollapp × Bool :=
  match ctx.rollapps rollappId with
  | some r => (r, true)
  | none => (Rollapp.zero, false)

/-- Modelled from the spec: the Sequencer Store getter `Keeper.GetSequencer`, which is
not in the handler's file; `get(address) -> (record, found)`. -/
def GetSequencer (ctx : Ctx) (sequencerAddress : String) : Sequencer × Bool :=
  match ctx.sequencers sequencerAddress with
  | some s => (s, true)
  | none => (Sequencer.zero, false)

/-- Modelled from the spec: the Sequencer Store setter `Keeper.SetSequencer`, which is
not in the handler's file; `put(record)`, keyed by the record's address. -/
def SetSequencer (ctx : Ctx) (sequencer : Sequencer) : Ctx :=
  { ctx with sequencers := fun a =>
      if a = sequencer.SequencerAddress then some sequencer else ctx.sequencers a }

/-- Modelled from the spec: the Roster Store getter `Keeper.GetSequencersByRollapp`,
which is not in the handler's file; `get(rollupId) -> (roster, found)`. -/
def GetSequencersByRollapp (ctx : Ctx) (rollappId : String) : SequencersByRollapp × Bool :=
  match ctx.sequencersByRollapp rollappId with
  | some r => (r, true)
  | none => (SequencersByRollapp.zero, false)

/-- Modelled from the spec: the Roster Store setter `Keeper.SetSequencersByRollapp`,
which is not in the handler's file; `put(roster)`, keyed by the roster's rollapp id. -/
def SetSequencersByRollapp (ctx : Ctx) (roster : SequencersByRollapp) : Ctx :=
  { ctx with sequencersByRollapp := fun r =>
      if r = roster.RollappId then some roster else ctx.sequencersByRollapp r }

/-- Modelled from the spec: the Scheduler Store setter `Keeper.SetScheduler`, which is
not in the handler's file; `put(address, status)`, keyed by the record's address. -/
def SetScheduler (ctx : Ctx) (scheduler : Scheduler) : Ctx :=
  { ctx with schedulers := fun a =>
      if a = scheduler.SequencerAddress then some scheduler else ctx.schedulers a }

/-- Modelled from the spec: `Description.EnsureLength`, which is not in the handler's
file; each field is length-bounded, and a violation fails with the description's
own length-validation error.  Go's `len` of a string is its length in bytes. -/
def Description.EnsureLength (lim : DescriptionLimits) (d : Description) :
    Except Error Description :=
  if d.Moniker.utf8ByteSize > lim.MaxMonikerLength then
    .error (Error.Wrapf Error.DescriptionTooLong "moniker")
  else if d.Website.utf8ByteSize > lim.MaxWebsiteLength then
    .error (Error.Wrapf Error.DescriptionTooLong "website")
  else if d.SecurityContact.utf8ByteSize > lim.MaxSecurityContactLength then
    .error (Error.Wrapf Error.DescriptionTooLong "security contact")
  else if d.Details.utf8ByteSize > lim.MaxDetailsLength then
    .error (Error.Wrapf Error.DescriptionTooLong "details")
  else
    .ok d

/-- The method `(*Any).GetCachedValue`, `return any.cachedValue`: it reads a field of its
receiver, so on a nil receiver it is a nil-pointer dereference, which panics;
`none` stands for that panic. -/
def GetCachedValue (any : Option Any) : Option CachedValue :=
  match any with
  | none => none
  | some a => some a.cachedValue

/-- The two-result type assertion `v.(cryptotypes.PubKey)`: on failure the first
result is the zero value of the interface type, a nil interface. -/
def assertPubKey (v : CachedValue) : Option PubKey × Bool :=
  match v with
  | CachedValue.pubKey pk => (some pk, true)
  | CachedValue.nil => (none, false)
  | CachedValue.other _ => (none, false)

/-- The verb `%T` of Go's `fmt` applied to a value of interface type
`cryptotypes.PubKey`: the dynamic type, and `<nil>` for a nil interface. -/
def fmtT (pk : Option PubKey) : String :=
  match pk with
  | none => "<nil>"
  | some k => k.GoType

/-- The function `codectypes.NewAnyWithValue`: a nil value is refused, any other
value is packed with its type URL, its bytes and itself as cached value. -/
def NewAnyWithValue (v : Option PubKey) : Except Error Any :=
  match v with
  | none => .error (Error.Wrapf Error.ErrPackAny "Expecting non nil value to create a new Any")
  | some pk =>
    .ok { TypeUrl := "/" ++ pk.MessageName, Value := pk.Bytes, cachedValue := CachedValue.pubKey pk }

/-! ## The handler -/

/-- The loop of lines 33 to 39: scan the list in order, stop at the first entry
equal to the address. -/
def scanPermissioned (permissionedAddresses : List String) (sequencerAddress : String) : Bool :=
  match permissionedAddresses with
  | [] => false
  | a :: rest => if a = sequencerAddress then true else scanPermissioned rest sequencerAddress

/-- The text of the over-capacity error of line 57. -/
def overCapacityText (rollappId : String) (maxSequencers currentNumOfSequencers : Int) : String :=
  "rollapp id: " ++ rollappId ++ " cannot have more than " ++ fmtD maxSequencers ++
    " sequencers but got: " ++ fmtD currentNumOfSequencers

/-- The text of the invalid-type error of line 84. -/
def invalidTypeText (pk : Option PubKey) : String :=
  "Expecting cryptotypes.PubKey, got " ++ fmtT pk

/-- Lines 49 to 79 of the handler, "update sequencers list": the capacity checks and the
scheduler write.  The result is the error returned at line 57 or 60, or the
context after `SetScheduler` together with the roster value held in the local
variable `sequencersByRollapp` when line 80 is reached. -/
def updateSequencersList (ctx : Ctx) (rollapp : Rollapp) (msg : MsgCreateSequencer) :
    Except Error (Ctx × SequencersByRollapp) :=
  let sequencersByRollapp := (GetSequencersByRollapp ctx msg.RollappId).1
  let found := (GetSequencersByRollapp ctx msg.RollappId).2
  if found = true then
    let maxSequencers := uint64ToInt rollapp.MaxSequencers
    let activeSequencers := sequencersByRollapp.Sequencers
    let currentNumOfSequencers : Int := (activeSequencers.Addresses.length : Int)
    if maxSequencers < currentNumOfSequencers then
      .error (Error.Wrapf Error.ErrLogic
        (overCapacityText msg.RollappId maxSequencers currentNumOfSequencers))
    else if maxSequencers = currentNumOfSequencers then
      .error Error.ErrMaxSequencersLimit
    else
      let sequencersByRollapp : SequencersByRollapp :=
        { sequencersByRollapp with
          Sequencers := { Addresses := sequencersByRollapp.Sequencers.Addresses ++ [msg.SequencerAddress] } }
      let scheduler : Scheduler :=
        { SequencerAddress := msg.SequencerAddress, Status := OperatingStatus.Inactive }
      .ok (SetScheduler ctx scheduler, sequencersByRollapp)
  else
    let sequencersByRollapp : SequencersByRollapp :=
      { RollappId := msg.RollappId,
        Sequencers := { Addresses := sequencersByRollapp.Sequencers.Addresses ++ [msg.SequencerAddress] } }
    let scheduler : Scheduler :=
      { SequencerAddress := msg.SequencerAddress, Status := OperatingStatus.Proposer }
    .ok (SetScheduler ctx scheduler, sequencersByRollapp)

/-- Lines 80 to 106 of the handler: the roster write, the public-key and description
checks, and the sequencer write.  Line 82 calls `GetCachedValue` on `msg.Pubkey`
after the roster write of line 80: on a nil envelope the call panics there. -/
def storeSequencer (lim : DescriptionLimits) (ctx : Ctx) (sequencersByRollapp : SequencersByRollapp)
    (msg : MsgCreateSequencer) : Ctx × Outcome MsgCreateSequencerResponse :=
  let ctx := SetSequencersByRollapp ctx sequencersByRollapp
  match GetCachedValue msg.Pubkey with
  | none => (ctx, .panic nilDereference)
  | some value =>
    let pk := (assertPubKey value).1
    let ok := (assertPubKey value).2
    if ok = false then
      (ctx, .error (Error.Wrapf Error.ErrInvalidType (invalidTypeText pk)))
    else
      match NewAnyWithValue pk with
      | .error err => (ctx, .error err)
      | .ok pkAny =>
        match msg.Description.EnsureLength lim with
        | .error err => (ctx, .error err)
        | .ok _ =>
          let sequencer : Sequencer :=
            { Creator := msg.Creator,
              SequencerAddress := msg.SequencerAddress,
              Pubkey := some pkAny,
              Description := msg.Description,
              RollappId := msg.RollappId }
          (SetSequencer ctx sequencer, .ok {})

/-- The handler `msgServer.CreateSequencer`: the context it leaves behind and what it
ends in. -/
def CreateSequencer (lim : DescriptionLimits) (ctx : Ctx) (msg : MsgCreateSequencer) :
    Ctx × Outcome MsgCreateSequencerResponse :=
  if (GetSequencer ctx msg.SequencerAddress).2 = true then
    (ctx, .error Error.ErrSequencerExists)
  else
    let rollapp := (GetRollapp ctx msg.RollappId).1
    let found := (GetRollapp ctx msg.RollappId).2
    if found = true then
      let permissionedAddresses := rollapp.PermissionedAddresses.Addresses
      if permissionedAddresses.length > 0 ∧
          scanPermissioned permissionedAddresses msg.SequencerAddress = false then
        (ctx, .error Error.ErrSequencerNotPermissioned)
      else
        match updateSequencersList ctx rollapp msg with
        | .error err => (ctx, .error err)
        | .ok (ctx1, sequencersByRollapp) => storeSequencer lim ctx1 sequencersByRollapp msg
    else
      (ctx, .error Error.ErrUnknownRollappId)

/-- The context after handling a list of messages one after the other, each in
the context the previous one left. -/
def runMsgs (lim : DescriptionLimits) (ctx : Ctx) (msgs : List MsgCreateSequencer) : Ctx :=
  match msgs with
  | [] => ctx
  | m :: rest => runMsgs lim (CreateSequencer lim ctx m).1 rest

/-- A context whose sequencer, roster and scheduler stores are empty, over a
given rollapp directory. -/
def emptyStores (rollapps : String → Option Rollapp) : Ctx :=
  { rollapps := rollapps,
    sequencers := fun _ => none,
    sequencersByRollapp := fun _ => none,
    schedulers := fun _ => none }

/-! ## Concrete scenarios -/

/-- Field limits used in the concrete scenarios. -/
def exLimits : DescriptionLimits :=
  { MaxMonikerLength := 70, MaxWebsiteLength := 140, MaxSecurityContactLength := 140,
    MaxDetailsLength := 280 }

/-- A description within `exLimits`. -/
def exDescription : Description :=
  { Moniker := "m", Website := "w", SecurityContact := "s", Details := "d" }

/-- A description whose moniker has 71 bytes, one more than `exLimits` allows. -/
def exLongDescription : Description :=
  { Moniker := String.mk (List.replicate 71 'x'), Website := "w", SecurityContact := "s",
    Details := "d" }

/-- A public key value. -/
def exPubKey : PubKey :=
  { GoType := "*ed25519.PubKey", MessageName := "cosmos.crypto.ed25519.PubKey", Bytes := [10, 1, 7] }

/-- An envelope holding `exPubKey`. -/
def exAny : Any :=
  { TypeUrl := "/cosmos.crypto.ed25519.PubKey", Value := [10, 1, 7],
    cachedValue := CachedValue.pubKey exPubKey }

/-- An envelope holding a value that is not a public key. -/
def exBadAny : Any :=
  { TypeUrl := "/cosmos.bank.v1beta1.MsgSend", Value := [],
    cachedValue := CachedValue.other "*types.MsgSend" }

/-- A rollapp directory: `R0` with capacity 0, `R1` with capacity 2 and open
admission, `R2` with capacity 5 and `R3` with capacity 1, both admitting only
`seqA`, `RBig` with capacity `2 ^ 63`; no other rollapp exists. -/
def exRollapps : String → Option Rollapp := fun r =>
  if r = "R1" then
    some { RollappId := "R1", MaxSequencers := 2, PermissionedAddresses := { Addresses := [] } }
  else if r = "R2" then
    some { RollappId := "R2", MaxSequencers := 5,
           PermissionedAddresses := { Addresses := ["seqA"] } }
  else if r = "R0" then
    some { RollappId := "R0", MaxSequencers := 0, PermissionedAddresses := { Addresses := [] } }
  else if r = "R3" then
    some { RollappId := "R3", MaxSequencers := 1,
           PermissionedAddresses := { Addresses := ["seqA"] } }
  else if r = "RBig" then
    some { RollappId := "RBig", MaxSequencers := 2 ^ 63,
           PermissionedAddresses := { Addresses := [] } }
  else none

/-- A well-formed request of `creator` for address `a` under rollapp `r`. -/
def exMsg (a r : String) : MsgCreateSequencer :=
  { Creator := "creator", SequencerAddress := a, Pubkey := some exAny,
    Description := exDescription, RollappId := r }

/-- The request `exMsg a r` with a public-key envelope that holds no public key. -/
def exMsgBadKey (a r : String) : MsgCreateSequencer :=
  { exMsg a r with Pubkey := some exBadAny }

/-- The request `exMsg a r` without a public-key envelope: `Pubkey` is nil. -/
def exMsgNoKey (a r : String) : MsgCreateSequencer :=
  { exMsg a r with Pubkey := none }

/-- The empty stores over `exRollapps`. -/
def exCtx0 : Ctx := emptyStores exRollapps

/-- The stores of Scenario A after `seq1` and `seq2` have registered under `R1`. -/
def exCtxFull : Ctx :=
  runMsgs exLimits exCtx0 [exMsg "seq1" "R1", exMsg "seq2" "R1"]

/-- The length of the roster stored for a rollapp; `GetSequencersByRollapp` gives the
empty zero value when there is none. -/
def rosterLength (ctx : Ctx) (rollappId : String) : Nat :=
  (GetSequencersByRollapp ctx rollappId).1.Sequencers.Addresses.length

/-- The number of calls of a run that succeed and carry the given rollapp id. -/
def countRegistered (lim : DescriptionLimits) (ctx : Ctx) (msgs : List MsgCreateSequencer)
    (rollappId : String) : Nat :=
  match msgs with
  | [] => 0
  | m :: rest =>
    (if m.RollappId = rollappId ∧ (CreateSequencer lim ctx m).2 = .ok {} then 1 else 0) +
      countRegistered lim (CreateSequencer lim ctx m).1 rest rollappId

/-- Every roster is stored under its own rollapp id, as `SetSequencersByRollapp` stores it. -/
def WellKeyed (ctx : Ctx) : Prop :=
  ∀ r sbr, ctx.sequencersByRollapp r = some sbr → sbr.RollappId = r

/-- Every stored roster of a known rollapp has one address, or no more addresses than
the rollapp's `MaxSequencers` read as an `int`. -/
def RostersBounded (ctx : Ctx) : Prop :=
  ∀ r sbr rollapp, ctx.sequencersByRollapp r = some sbr → ctx.rollapps r = some rollapp →
    sbr.Sequencers.Addresses.length ≤ 1 ∨
      (sbr.Sequencers.Addresses.length : Int) ≤ uint64ToInt rollapp.MaxSequencers

/-- A rollapp directory with the one rollapp `RMax`, of open admission, whose
`MaxSequencers` is the largest `uint64`. -/
def exRollappsMax : String → Option Rollapp := fun r =>
  if r = "RMax" then
    some { RollappId := "RMax", MaxSequencers := 2 ^ 64 - 1,
           PermissionedAddresses := { Addresses := [] } }
  else none

/-! ## The six checks, one by one -/

/-- The uniqueness check of lines 18 to 21, on its own. -/
def uniquenessCheck (ctx : Ctx) (msg : MsgCreateSequencer) : Option Error :=
  if (GetSequencer ctx msg.SequencerAddress).2 = true then some Error.ErrSequencerExists else none

/-- The rollapp existence check of lines 24, 26 and 45 to 47, on its own. -/
def rollappExistenceCheck (ctx : Ctx) (msg : MsgCreateSequencer) : Option Error :=
  if (GetRollapp ctx msg.RollappId).2 = true then none else some Error.ErrUnknownRollappId

/-- The permission check of lines 29 to 43, on its own. -/
def permissionCheck (ctx : Ctx) (msg : MsgCreateSequencer) : Option Error :=
  if (GetRollapp ctx msg.RollappId).1.PermissionedAddresses.Addresses.length > 0 ∧
      scanPermissioned (GetRollapp ctx msg.RollappId).1.PermissionedAddresses.Addresses
        msg.SequencerAddress = false then
    some Error.ErrSequencerNotPermissioned
  else none

/-- The capacity check of lines 50 to 61, on its own. -/
def capacityCheck (ctx : Ctx) (msg : MsgCreateSequencer) : Option Error :=
  if (GetSequencersByRollapp ctx msg.RollappId).2 = true then
    if uint64ToInt (GetRollapp ctx msg.RollappId).1.MaxSequencers <
        ((GetSequencersByRollapp ctx msg.RollappId).1.Sequencers.Addresses.length : Int) then
      some (Error.Wrapf Error.ErrLogic
        (overCapacityText msg.RollappId
          (uint64ToInt (GetRollapp ctx msg.RollappId).1.MaxSequencers)
          ((GetSequencersByRollapp ctx msg.RollappId).1.Sequencers.Addresses.length : Int)))
    else if uint64ToInt (GetRollapp ctx msg.RollappId).1.MaxSequencers =
        ((GetSequencersByRollapp ctx msg.RollappId).1.Sequencers.Addresses.length : Int) then
      some Error.ErrMaxSequencersLimit
    else none
  else none

/-- The public-key type check of lines 82 to 85, on its own, applied to the value that
`GetCachedValue` gave for the envelope. -/
def publicKeyCheck (value : CachedValue) : Option Error :=
  if (assertPubKey value).2 = false then
    some (Error.Wrapf Error.ErrInvalidType (invalidTypeText (assertPubKey value).1))
  else none

/-- The description length check of lines 92 to 94, on its own. -/
def descriptionCheck (lim : DescriptionLimits) (msg : MsgCreateSequencer) : Option Error :=
  match msg.Description.EnsureLength lim with
  | .error err => some err
  | .ok _ => none

/-- The six checks in the order uniqueness, rollapp existence, permission, capacity,
public-key type, description length, for a request whose envelope holds `value`. -/
def checksInOrder (lim : DescriptionLimits) (ctx : Ctx) (msg : MsgCreateSequencer)
    (value : CachedValue) : List (Option Error) :=
  [uniquenessCheck ctx msg, rollappExistenceCheck ctx msg, permissionCheck ctx msg,
    capacityCheck ctx msg, publicKeyCheck value, descriptionCheck lim msg]

/-- The error of the first check of the list that fails, if one fails. -/
def firstFailure (lim : DescriptionLimits) (ctx : Ctx) (msg : MsgCreateSequencer)
    (value : CachedValue) : Option Error :=
  (checksInOrder lim ctx msg value).findSome? id

/-! ## Events of a run -/

/-- Modelled from the spec: the host's all-or-nothing transaction boundary of section 5,
which is outside the handler's file: the writes of a call that returns an error
or panics are discarded, those of a call that succeeds are kept. -/
def deliver (lim : DescriptionLimits) (ctx : Ctx) (msg : MsgCreateSequencer) : Ctx :=
  match (CreateSequencer lim ctx msg).2 with
  | .ok _ => (CreateSequencer lim ctx msg).1
  | .error _ => ctx
  | .panic _ => ctx

/-- The context after delivering a list of messages one after the other. -/
def runCommitted (lim : DescriptionLimits) (ctx : Ctx) (msgs : List MsgCreateSequencer) : Ctx :=
  match msgs with
  | [] => ctx
  | m :: rest => runCommitted lim (deliver lim ctx m) rest

/-- Every sequencer record is stored under its own address, as `SetSequencer` stores it. -/
def SequencersKeyed (ctx : Ctx) : Prop :=
  ∀ a s, ctx.sequencers a = some s → s.SequencerAddress = a

/-- The consistency of the three stores: every roster is stored under its own id, has
no duplicate address and is not empty; every address of the roster of a rollapp
has a sequencer record with that rollapp id and a scheduler record, of status
Proposer for the first address of the roster and Inactive for the others; and
the address of every sequencer record is in the roster of the record's rollapp. -/
def StoresConsistent (ctx : Ctx) : Prop :=
  WellKeyed ctx ∧
  (∀ r sbr, ctx.sequencersByRollapp r = some sbr →
    sbr.Sequencers.Addresses.Nodup ∧ sbr.Sequencers.Addresses ≠ []) ∧
  (∀ r sbr a, ctx.sequencersByRollapp r = some sbr → a ∈ sbr.Sequencers.Addresses →
    (∃ s, ctx.sequencers a = some s ∧ s.RollappId = r) ∧
    ctx.schedulers a =
      some { SequencerAddress := a,
             Status := if sbr.Sequencers.Addresses.head? = some a
               then OperatingStatus.Proposer else OperatingStatus.Inactive }) ∧
  (∀ a s, ctx.sequencers a = some s →
    ∃ sbr, ctx.sequencersByRollapp s.RollappId = some sbr ∧ a ∈ sbr.Sequencers.Addresses)

/-! ## Lemmas on the collaborators and on the two halves of the handler -/

theorem GetSequencer_found (ctx : Ctx) (a : String) :
    (GetSequencer ctx a).2 = (ctx.sequencers a).isSome := by
  unfold GetSequencer
  cases ctx.sequencers a <;> rfl

theorem GetRollapp_found (ctx : Ctx) (r : String) :
    (GetRollapp ctx r).2 = (ctx.rollapps r).isSome := by
  unfold GetRollapp
  cases ctx.rollapps r <;> rfl

theorem GetSequencersByRollapp_found (ctx : Ctx) (r : String) :
    (GetSequencersByRollapp ctx r).2 = (ctx.sequencersByRollapp r).isSome := by
  unfold GetSequencersByRollapp
  cases ctx.sequencersByRollapp r <;> rfl

/-- The errors of `Description.EnsureLength` are wrapped description errors. -/
theorem EnsureLength_error (lim : DescriptionLimits) (d : Description) (err : Error)
    (h : d.EnsureLength lim = .error err) : ∃ t, err = Error.Wrapf Error.DescriptionTooLong t := by
  unfold Description.EnsureLength at h
  split_ifs at h <;> simp at h <;> exact ⟨_, h.symm⟩

/-- Lines 80 to 106 by the value the envelope holds: a panic without envelope, the
invalid-type error for a value that is no public key, and for a public key the
description error or the sequencer write. -/
theorem storeSequencer_cases (lim : DescriptionLimits) (ctx : Ctx) (sbr : SequencersByRollapp)
    (msg : MsgCreateSequencer) :
    (GetCachedValue msg.Pubkey = none ∧
      storeSequencer lim ctx sbr msg = (SetSequencersByRollapp ctx sbr, .panic nilDereference)) ∨
    (∃ value, GetCachedValue msg.Pubkey = some value ∧ (∀ pk, value ≠ CachedValue.pubKey pk) ∧
      storeSequencer lim ctx sbr msg =
        (SetSequencersByRollapp ctx sbr,
          .error (Error.Wrapf Error.ErrInvalidType (invalidTypeText none)))) ∨
    (∃ pk err, GetCachedValue msg.Pubkey = some (CachedValue.pubKey pk) ∧
      msg.Description.EnsureLength lim = .error err ∧
      storeSequencer lim ctx sbr msg = (SetSequencersByRollapp ctx sbr, .error err)) ∨
    (∃ pk d, GetCachedValue msg.Pubkey = some (CachedValue.pubKey pk) ∧
      msg.Description.EnsureLength lim = .ok d ∧
      storeSequencer lim ctx sbr msg =
        (SetSequencer (SetSequencersByRollapp ctx sbr)
          { Creator := msg.Creator, SequencerAddress := msg.SequencerAddress,
            Pubkey := some { TypeUrl := "/" ++ pk.MessageName, Value := pk.Bytes,
                             cachedValue := CachedValue.pubKey pk },
            Description := msg.Description, RollappId := msg.RollappId }, .ok {})) := by
  unfold storeSequencer
  simp only
  cases hc : GetCachedValue msg.Pubkey with
  | none => exact Or.inl ⟨rfl, rfl⟩
  | some value =>
    cases value with
    | nil =>
      refine Or.inr (Or.inl ⟨CachedValue.nil, rfl, ?_, ?_⟩)
      · intro pk h; cases h
      · simp [assertPubKey]
    | other t =>
      refine Or.inr (Or.inl ⟨CachedValue.other t, rfl, ?_, ?_⟩)
      · intro pk h; cases h
      · simp [assertPubKey]
    | pubKey pk =>
      cases hd : msg.Description.EnsureLength lim with
      | error err =>
        refine Or.inr (Or.inr (Or.inl ⟨pk, err, rfl, rfl, ?_⟩))
        simp [assertPubKey, NewAnyWithValue]
      | ok d =>
        refine Or.inr (Or.inr (Or.inr ⟨pk, d, rfl, rfl, ?_⟩))
        simp [assertPubKey, NewAnyWithValue]

/-- The errors of lines 80 to 106 are wrapped invalid-type, pack or description errors. -/
theorem storeSequencer_error (lim : DescriptionLimits) (ctx : Ctx) (sbr : SequencersByRollapp)
    (msg : MsgCreateSequencer) (e : Error)
    (h : (storeSequencer lim ctx sbr msg).2 = .error e) :
    ∃ t, e = Error.Wrapf Error.ErrInvalidType t ∨ e = Error.Wrapf Error.ErrPackAny t ∨
      e = Error.Wrapf Error.DescriptionTooLong t := by
  rcases storeSequencer_cases lim ctx sbr msg with ⟨_, hs⟩ | ⟨_, _, _, hs⟩ | ⟨_, err, _, hd, hs⟩ |
    ⟨_, _, _, _, hs⟩
  · rw [hs] at h; simp at h
  · rw [hs] at h; simp at h; exact ⟨_, Or.inl h.symm⟩
  · rw [hs] at h
    simp at h
    subst h
    obtain ⟨t, ht⟩ := EnsureLength_error lim _ _ hd
    exact ⟨t, Or.inr (Or.inr ht)⟩
  · rw [hs] at h; simp at h

/-- The context left by lines 80 to 106 when they do not end in success: the context
after the roster write of line 80. -/
theorem storeSequencer_fst_not_ok (lim : DescriptionLimits) (ctx : Ctx)
    (sbr : SequencersByRollapp) (msg : MsgCreateSequencer)
    (h : ∀ r, (storeSequencer lim ctx sbr msg).2 ≠ .ok r) :
    (storeSequencer lim ctx sbr msg).1 = SetSequencersByRollapp ctx sbr := by
  rcases storeSequencer_cases lim ctx sbr msg with ⟨_, hs⟩ | ⟨_, _, _, hs⟩ | ⟨_, err, _, hd, hs⟩ |
    ⟨_, _, _, _, hs⟩
  · rw [hs]
  · rw [hs]
  · rw [hs]
  · rw [hs] at h
    exact absurd rfl (h {})

/-- The context a call leaves behind differs from the one it found only by the
writes of lines 69, 78, 80 and 104. -/
theorem storeSequencer_fst_error (lim : DescriptionLimits) (ctx : Ctx) (sbr : SequencersByRollapp)
    (msg : MsgCreateSequencer) (e : Error)
    (h : (storeSequencer lim ctx sbr msg).2 = .error e) :
    (storeSequencer lim ctx sbr msg).1 = SetSequencersByRollapp ctx sbr := by
  apply storeSequencer_fst_not_ok
  intro r hr
  rw [h] at hr
  cases hr

theorem storeSequencer_ok (lim : DescriptionLimits) (ctx : Ctx) (sbr : SequencersByRollapp)
    (msg : MsgCreateSequencer) (r : MsgCreateSequencerResponse)
    (h : (storeSequencer lim ctx sbr msg).2 = .ok r) :
    ∃ pk d, GetCachedValue msg.Pubkey = some (CachedValue.pubKey pk) ∧
      msg.Description.EnsureLength lim = .ok d ∧
      (storeSequencer lim ctx sbr msg).1 =
        SetSequencer (SetSequencersByRollapp ctx sbr)
          { Creator := msg.Creator, SequencerAddress := msg.SequencerAddress,
            Pubkey := some { TypeUrl := "/" ++ pk.MessageName, Value := pk.Bytes,
                             cachedValue := CachedValue.pubKey pk },
            Description := msg.Description, RollappId := msg.RollappId } := by
  rcases storeSequencer_cases lim ctx sbr msg with ⟨_, hs⟩ | ⟨_, _, _, hs⟩ | ⟨_, err, _, hd, hs⟩ |
    ⟨pk, d, hc, hd, hs⟩
  · rw [hs] at h; simp at h
  · rw [hs] at h; simp at h
  · rw [hs] at h; simp at h
  · exact ⟨pk, d, hc, hd, by rw [hs]⟩

theorem updateSequencersList_error (ctx : Ctx) (rollapp : Rollapp) (msg : MsgCreateSequencer)
    (e : Error) (h : updateSequencersList ctx rollapp msg = .error e) :
    (GetSequencersByRollapp ctx msg.RollappId).2 = true ∧
    ((uint64ToInt rollapp.MaxSequencers <
        ((GetSequencersByRollapp ctx msg.RollappId).1.Sequencers.Addresses.length : Int) ∧
      e = Error.Wrapf Error.ErrLogic (overCapacityText msg.RollappId
        (uint64ToInt rollapp.MaxSequencers)
        ((GetSequencersByRollapp ctx msg.RollappId).1.Sequencers.Addresses.length : Int))) ∨
     (uint64ToInt rollapp.MaxSequencers =
        ((GetSequencersByRollapp ctx msg.RollappId).1.Sequencers.Addresses.length : Int) ∧
      e = Error.ErrMaxSequencersLimit)) := by
  unfold updateSequencersList at h
  simp only at h
  split_ifs at h with h1 h2 h3
  · simp at h; exact ⟨h1, Or.inl ⟨h2, h.symm⟩⟩
  · simp at h; exact ⟨h1, Or.inr ⟨h3, h.symm⟩⟩

theorem updateSequencersList_ok (ctx : Ctx) (rollapp : Rollapp) (msg : MsgCreateSequencer)
    (ctx1 : Ctx) (sbr : SequencersByRollapp)
    (h : updateSequencersList ctx rollapp msg = .ok (ctx1, sbr)) :
    ((GetSequencersByRollapp ctx msg.RollappId).2 = true ∧
      ((GetSequencersByRollapp ctx msg.RollappId).1.Sequencers.Addresses.length : Int) <
        uint64ToInt rollapp.MaxSequencers ∧
      ctx1 = SetScheduler ctx
        { SequencerAddress := msg.SequencerAddress, Status := OperatingStatus.Inactive } ∧
      sbr = { RollappId := (GetSequencersByRollapp ctx msg.RollappId).1.RollappId,
              Sequencers := { Addresses :=
                (GetSequencersByRollapp ctx msg.RollappId).1.Sequencers.Addresses ++
                  [msg.SequencerAddress] } }) ∨
    ((GetSequencersByRollapp ctx msg.RollappId).2 = false ∧
      ctx1 = SetScheduler ctx
        { SequencerAddress := msg.SequencerAddress, Status := OperatingStatus.Proposer } ∧
      sbr = { RollappId := msg.RollappId,
              Sequencers := { Addresses := [msg.SequencerAddress] } }) := by
  unfold updateSequencersList at h
  simp only at h
  split_ifs at h with h1 h2 h3
  · simp at h
    refine Or.inl ⟨h1, ?_, h.1.symm, h.2.symm⟩
    omega
  · simp at h
    have hz : (GetSequencersByRollapp ctx msg.RollappId).1 = SequencersByRollapp.zero := by
      unfold GetSequencersByRollapp at h1 ⊢
      cases hh : ctx.sequencersByRollapp msg.RollappId <;> simp [hh] at h1 ⊢
    refine Or.inr ⟨by simpa using h1, h.1.symm, ?_⟩
    rw [← h.2, hz]
    rfl

/-! ## The four ways through the first half of the handler -/

theorem CreateSequencer_registered (lim : DescriptionLimits) (ctx : Ctx) (msg : MsgCreateSequencer)
    (h : (GetSequencer ctx msg.SequencerAddress).2 = true) :
    CreateSequencer lim ctx msg = (ctx, .error Error.ErrSequencerExists) := by
  unfold CreateSequencer
  rw [if_pos h]

theorem CreateSequencer_unknownRollapp (lim : DescriptionLimits) (ctx : Ctx)
    (msg : MsgCreateSequencer)
    (h1 : (GetSequencer ctx msg.SequencerAddress).2 = false)
    (h2 : (GetRollapp ctx msg.RollappId).2 = false) :
    CreateSequencer lim ctx msg = (ctx, .error Error.ErrUnknownRollappId) := by
  unfold CreateSequencer
  simp [h1, h2]

theorem CreateSequencer_notPermissioned (lim : DescriptionLimits) (ctx : Ctx)
    (msg : MsgCreateSequencer)
    (h1 : (GetSequencer ctx msg.SequencerAddress).2 = false)
    (h2 : (GetRollapp ctx msg.RollappId).2 = true)
    (h3 : (GetRollapp ctx msg.RollappId).1.PermissionedAddresses.Addresses.length > 0)
    (h4 : scanPermissioned (GetRollapp ctx msg.RollappId).1.PermissionedAddresses.Addresses
            msg.SequencerAddress = false) :
    CreateSequencer lim ctx msg = (ctx, .error Error.ErrSequencerNotPermissioned) := by
  unfold CreateSequencer
  simp only [h1, h2]
  simp [h3, h4]

theorem CreateSequencer_admitted (lim : DescriptionLimits) (ctx : Ctx)
    (msg : MsgCreateSequencer)
    (h1 : (GetSequencer ctx msg.SequencerAddress).2 = false)
    (h2 : (GetRollapp ctx msg.RollappId).2 = true)
    (h3 : ¬ ((GetRollapp ctx msg.RollappId).1.PermissionedAddresses.Addresses.length > 0 ∧
        scanPermissioned (GetRollapp ctx msg.RollappId).1.PermissionedAddresses.Addresses
          msg.SequencerAddress = false)) :
    CreateSequencer lim ctx msg =
      match updateSequencersList ctx (GetRollapp ctx msg.RollappId).1 msg with
      | .error err => (ctx, .error err)
      | .ok (ctx1, sequencersByRollapp) => storeSequencer lim ctx1 sequencersByRollapp msg := by
  unfold CreateSequencer
  simp only [h1, h2]
  simp only [if_neg h3]
  simp

/-- Every call takes one of the four ways. -/
theorem CreateSequencer_cases (lim : DescriptionLimits) (ctx : Ctx) (msg : MsgCreateSequencer) :
    CreateSequencer lim ctx msg = (ctx, .error Error.ErrSequencerExists) ∨
    CreateSequencer lim ctx msg = (ctx, .error Error.ErrUnknownRollappId) ∨
    CreateSequencer lim ctx msg = (ctx, .error Error.ErrSequencerNotPermissioned) ∨
    ((GetSequencer ctx msg.SequencerAddress).2 = false ∧
      (GetRollapp ctx msg.RollappId).2 = true ∧
      CreateSequencer lim ctx msg =
        match updateSequencersList ctx (GetRollapp ctx msg.RollappId).1 msg with
        | .error err => (ctx, .error err)
        | .ok (ctx1, sequencersByRollapp) => storeSequencer lim ctx1 sequencersByRollapp msg) := by
  by_cases h1 : (GetSequencer ctx msg.SequencerAddress).2 = true
  · exact Or.inl (CreateSequencer_registered lim ctx msg h1)
  · have h1f : (GetSequencer ctx msg.SequencerAddress).2 = false := by simpa using h1
    by_cases h2 : (GetRollapp ctx msg.RollappId).2 = true
    · by_cases h3 : ((GetRollapp ctx msg.RollappId).1.PermissionedAddresses.Addresses.length > 0 ∧
        scanPermissioned (GetRollapp ctx msg.RollappId).1.PermissionedAddresses.Addresses
          msg.SequencerAddress = false)
      · exact Or.inr (Or.inr (Or.inl
          (CreateSequencer_notPermissioned lim ctx msg h1f h2 h3.1 h3.2)))
      · exact Or.inr (Or.inr (Or.inr ⟨h1f, h2, CreateSequencer_admitted lim ctx msg h1f h2 h3⟩))
    · have h2f : (GetRollapp ctx msg.RollappId).2 = false := by simpa using h2
      exact Or.inr (Or.inl (CreateSequencer_unknownRollapp lim ctx msg h1f h2f))

/-- The record written at line 104. -/
theorem CreateSequencer_ok_ctx (lim : DescriptionLimits) (ctx : Ctx) (msg : MsgCreateSequencer)
    (r : MsgCreateSequencerResponse) (h : (CreateSequencer lim ctx msg).2 = .ok r) :
    ∃ pk d ctx1 sbr,
      (GetSequencer ctx msg.SequencerAddress).2 = false ∧
      (GetRollapp ctx msg.RollappId).2 = true ∧
      GetCachedValue msg.Pubkey = some (CachedValue.pubKey pk) ∧
      msg.Description.EnsureLength lim = .ok d ∧
      updateSequencersList ctx (GetRollapp ctx msg.RollappId).1 msg = .ok (ctx1, sbr) ∧
      (CreateSequencer lim ctx msg).1 =
        SetSequencer (SetSequencersByRollapp ctx1 sbr)
          { Creator := msg.Creator, SequencerAddress := msg.SequencerAddress,
            Pubkey := some { TypeUrl := "/" ++ pk.MessageName, Value := pk.Bytes,
                             cachedValue := CachedValue.pubKey pk },
            Description := msg.Description, RollappId := msg.RollappId } := by
  rcases CreateSequencer_cases lim ctx msg with hc | hc | hc | ⟨h1, h2, hc⟩
  · rw [hc] at h; simp at h
  · rw [hc] at h; simp at h
  · rw [hc] at h; simp at h
  · rw [hc] at h ⊢
    cases hu : updateSequencersList ctx (GetRollapp ctx msg.RollappId).1 msg with
    | error err => rw [hu] at h; simp at h
    | ok p =>
      obtain ⟨ctx1, sbr⟩ := p
      rw [hu] at h
      simp only at h ⊢
      obtain ⟨pk, d, h3, h4, h5⟩ := storeSequencer_ok lim ctx1 sbr msg r h
      exact ⟨pk, d, ctx1, sbr, h1, h2, h3, h4, rfl, h5⟩

/-- The context a failed call leaves behind: the one it found, or that one with
the writes of lines 69 or 78 and of line 80. -/
theorem CreateSequencer_error_ctx (lim : DescriptionLimits) (ctx : Ctx) (msg : MsgCreateSequencer)
    (e : Error) (h : (CreateSequencer lim ctx msg).2 = .error e) :
    (CreateSequencer lim ctx msg).1 = ctx ∨
    ∃ ctx1 sbr,
      (GetSequencer ctx msg.SequencerAddress).2 = false ∧
      (GetRollapp ctx msg.RollappId).2 = true ∧
      updateSequencersList ctx (GetRollapp ctx msg.RollappId).1 msg = .ok (ctx1, sbr) ∧
      (CreateSequencer lim ctx msg).1 = SetSequencersByRollapp ctx1 sbr := by
  rcases CreateSequencer_cases lim ctx msg with hc | hc | hc | ⟨h1, h2, hc⟩
  · rw [hc]; exact Or.inl rfl
  · rw [hc]; exact Or.inl rfl
  · rw [hc]; exact Or.inl rfl
  · rw [hc] at h ⊢
    cases hu : updateSequencersList ctx (GetRollapp ctx msg.RollappId).1 msg with
    | error err => exact Or.inl rfl
    | ok p =>
      obtain ⟨ctx1, sbr⟩ := p
      rw [hu] at h
      simp only at h ⊢
      exact Or.inr ⟨ctx1, sbr, h1, h2, rfl, storeSequencer_fst_error lim ctx1 sbr msg e h⟩

/-- The context a call that panics leaves behind: the one it found with the writes of
lines 69 or 78 and of line 80, the request having no envelope. -/
theorem CreateSequencer_panic_ctx (lim : DescriptionLimits) (ctx : Ctx) (msg : MsgCreateSequencer)
    (t : String) (h : (CreateSequencer lim ctx msg).2 = .panic t) :
    GetCachedValue msg.Pubkey = none ∧
    ∃ ctx1 sbr,
      (GetSequencer ctx msg.SequencerAddress).2 = false ∧
      (GetRollapp ctx msg.RollappId).2 = true ∧
      updateSequencersList ctx (GetRollapp ctx msg.RollappId).1 msg = .ok (ctx1, sbr) ∧
      (CreateSequencer lim ctx msg).1 = SetSequencersByRollapp ctx1 sbr := by
  rcases CreateSequencer_cases lim ctx msg with hc | hc | hc | ⟨h1, h2, hc⟩
  · rw [hc] at h; simp at h
  · rw [hc] at h; simp at h
  · rw [hc] at h; simp at h
  · rw [hc] at h ⊢
    cases hu : updateSequencersList ctx (GetRollapp ctx msg.RollappId).1 msg with
    | error err => rw [hu] at h; simp at h
    | ok p =>
      obtain ⟨ctx1, sbr⟩ := p
      rw [hu] at h
      simp only at h ⊢
      rcases storeSequencer_cases lim ctx1 sbr msg with ⟨hn, hs⟩ | ⟨_, _, _, hs⟩ |
        ⟨_, _, _, _, hs⟩ | ⟨_, _, _, _, hs⟩
      · exact ⟨hn, ctx1, sbr, h1, h2, rfl, by rw [hs]⟩
      · rw [hs] at h; simp at h
      · rw [hs] at h; simp at h
      · rw [hs] at h; simp at h

/-- The scheduler write of lines 69 and 78 leaves the other stores alone. -/
theorem updateSequencersList_ctx (ctx : Ctx) (rollapp : Rollapp) (msg : MsgCreateSequencer)
    (ctx1 : Ctx) (sbr : SequencersByRollapp)
    (h : updateSequencersList ctx rollapp msg = .ok (ctx1, sbr)) :
    ctx1.rollapps = ctx.rollapps ∧ ctx1.sequencers = ctx.sequencers ∧
    ctx1.sequencersByRollapp = ctx.sequencersByRollapp := by
  rcases updateSequencersList_ok ctx rollapp msg ctx1 sbr h with ⟨_, _, hc, _⟩ | ⟨_, hc, _⟩ <;>
    subst hc <;> exact ⟨rfl, rfl, rfl⟩

/-- No call removes or replaces a sequencer record. -/
theorem CreateSequencer_keeps_sequencer (lim : DescriptionLimits) (ctx : Ctx)
    (msg : MsgCreateSequencer) (a : String) (h : (GetSequencer ctx a).2 = true) :
    (CreateSequencer lim ctx msg).1.sequencers a = ctx.sequencers a := by
  cases hr : (CreateSequencer lim ctx msg).2 with
  | error e =>
    rcases CreateSequencer_error_ctx lim ctx msg e hr with hc | ⟨ctx1, sbr, _, _, hu, hc⟩
    · rw [hc]
    · rw [hc]
      have := (updateSequencersList_ctx ctx _ msg ctx1 sbr hu).2.1
      simp [SetSequencersByRollapp, this]
  | panic t =>
    obtain ⟨_, ctx1, sbr, _, _, hu, hc⟩ := CreateSequencer_panic_ctx lim ctx msg t hr
    rw [hc]
    have := (updateSequencersList_ctx ctx _ msg ctx1 sbr hu).2.1
    simp [SetSequencersByRollapp, this]
  | ok r =>
    obtain ⟨pk, d, ctx1, sbr, h1, _, _, _, hu, hc⟩ := CreateSequencer_ok_ctx lim ctx msg r hr
    rw [hc]
    have := (updateSequencersList_ctx ctx _ msg ctx1 sbr hu).2.1
    have hne : a ≠ msg.SequencerAddress := by
      intro ha
      rw [ha, h1] at h
      simp at h
    simp [SetSequencer, SetSequencersByRollapp, this, hne]

theorem runMsgs_keeps_sequencer (lim : DescriptionLimits) (msgs : List MsgCreateSequencer)
    (ctx : Ctx) (a : String) (h : (GetSequencer ctx a).2 = true) :
    (GetSequencer (runMsgs lim ctx msgs) a).2 = true := by
  induction msgs generalizing ctx with
  | nil => exact h
  | cons m rest ih =>
    unfold runMsgs
    apply ih
    rw [GetSequencer_found] at h ⊢
    rw [CreateSequencer_keeps_sequencer lim ctx m a (by rw [GetSequencer_found]; exact h)]
    exact h

theorem CreateSequencer_ok_registers (lim : DescriptionLimits) (ctx : Ctx)
    (msg : MsgCreateSequencer) (r : MsgCreateSequencerResponse)
    (h : (CreateSequencer lim ctx msg).2 = .ok r) :
    (GetSequencer (CreateSequencer lim ctx msg).1 msg.SequencerAddress).2 = true := by
  obtain ⟨pk, d, ctx1, sbr, _, _, _, _, _, hc⟩ := CreateSequencer_ok_ctx lim ctx msg r h
  rw [hc, GetSequencer_found]
  simp [SetSequencer]

theorem GetSequencersByRollapp_some (ctx : Ctx) (r : String) (sbr : SequencersByRollapp)
    (h : ctx.sequencersByRollapp r = some sbr) : GetSequencersByRollapp ctx r = (sbr, true) := by
  simp [GetSequencersByRollapp, h]

theorem GetSequencersByRollapp_none (ctx : Ctx) (r : String)
    (h : ctx.sequencersByRollapp r = none) :
    GetSequencersByRollapp ctx r = (SequencersByRollapp.zero, false) := by
  simp [GetSequencersByRollapp, h]

theorem GetRollapp_some (ctx : Ctx) (r : String) (rollapp : Rollapp)
    (h : ctx.rollapps r = some rollapp) : GetRollapp ctx r = (rollapp, true) := by
  simp [GetRollapp, h]

theorem GetRollapp_true (ctx : Ctx) (r : String) (h : (GetRollapp ctx r).2 = true) :
    ctx.rollapps r = some (GetRollapp ctx r).1 := by
  unfold GetRollapp at h ⊢
  cases hh : ctx.rollapps r <;> simp [hh] at h ⊢

/-- No call writes the rollapp directory. -/
theorem CreateSequencer_rollapps (lim : DescriptionLimits) (ctx : Ctx) (msg : MsgCreateSequencer) :
    (CreateSequencer lim ctx msg).1.rollapps = ctx.rollapps := by
  cases hr : (CreateSequencer lim ctx msg).2 with
  | error e =>
    rcases CreateSequencer_error_ctx lim ctx msg e hr with hc | ⟨ctx1, sbr, _, _, hu, hc⟩
    · rw [hc]
    · rw [hc]
      exact (updateSequencersList_ctx ctx _ msg ctx1 sbr hu).1
  | panic t =>
    obtain ⟨_, ctx1, sbr, _, _, hu, hc⟩ := CreateSequencer_panic_ctx lim ctx msg t hr
    rw [hc]
    exact (updateSequencersList_ctx ctx _ msg ctx1 sbr hu).1
  | ok r =>
    obtain ⟨pk, d, ctx1, sbr, _, _, _, _, hu, hc⟩ := CreateSequencer_ok_ctx lim ctx msg r hr
    rw [hc]
    exact (updateSequencersList_ctx ctx _ msg ctx1 sbr hu).1

theorem runMsgs_rollapps (lim : DescriptionLimits) (msgs : List MsgCreateSequencer) (ctx : Ctx) :
    (runMsgs lim ctx msgs).rollapps = ctx.rollapps := by
  induction msgs generalizing ctx with
  | nil => rfl
  | cons m rest ih =>
    unfold runMsgs
    rw [ih, CreateSequencer_rollapps]

/-- The roster store after a call, when every roster is stored under its own id: it
is the store before the call, or that store with the roster of the request's
rollapp created with the one address or extended by it. -/
theorem CreateSequencer_roster (lim : DescriptionLimits) (ctx : Ctx) (msg : MsgCreateSequencer)
    (hk : WellKeyed ctx) :
    ((∃ e, (CreateSequencer lim ctx msg).2 = .error e) ∧
      (CreateSequencer lim ctx msg).1.sequencersByRollapp = ctx.sequencersByRollapp) ∨
    ((GetSequencer ctx msg.SequencerAddress).2 = false ∧
      ∃ rollapp, ctx.rollapps msg.RollappId = some rollapp ∧
        ((ctx.sequencersByRollapp msg.RollappId = none ∧
          (CreateSequencer lim ctx msg).1.sequencersByRollapp = fun r =>
            if r = msg.RollappId then
              some { RollappId := msg.RollappId,
                     Sequencers := { Addresses := [msg.SequencerAddress] } }
            else ctx.sequencersByRollapp r) ∨
         (∃ old, ctx.sequencersByRollapp msg.RollappId = some old ∧
          (old.Sequencers.Addresses.length : Int) < uint64ToInt rollapp.MaxSequencers ∧
          (CreateSequencer lim ctx msg).1.sequencersByRollapp = fun r =>
            if r = msg.RollappId then
              some { RollappId := msg.RollappId,
                     Sequencers := { Addresses :=
                       old.Sequencers.Addresses ++ [msg.SequencerAddress] } }
            else ctx.sequencersByRollapp r))) := by
  have key : ∀ ctx1 sbr, (GetSequencer ctx msg.SequencerAddress).2 = false →
      (GetRollapp ctx msg.RollappId).2 = true →
      updateSequencersList ctx (GetRollapp ctx msg.RollappId).1 msg = .ok (ctx1, sbr) →
      (CreateSequencer lim ctx msg).1.sequencersByRollapp =
        (SetSequencersByRollapp ctx1 sbr).sequencersByRollapp →
      ((GetSequencer ctx msg.SequencerAddress).2 = false ∧
      ∃ rollapp, ctx.rollapps msg.RollappId = some rollapp ∧
        ((ctx.sequencersByRollapp msg.RollappId = none ∧
          (CreateSequencer lim ctx msg).1.sequencersByRollapp = fun r =>
            if r = msg.RollappId then
              some { RollappId := msg.RollappId,
                     Sequencers := { Addresses := [msg.SequencerAddress] } }
            else ctx.sequencersByRollapp r) ∨
         (∃ old, ctx.sequencersByRollapp msg.RollappId = some old ∧
          (old.Sequencers.Addresses.length : Int) < uint64ToInt rollapp.MaxSequencers ∧
          (CreateSequencer lim ctx msg).1.sequencersByRollapp = fun r =>
            if r = msg.RollappId then
              some { RollappId := msg.RollappId,
                     Sequencers := { Addresses :=
                       old.Sequencers.Addresses ++ [msg.SequencerAddress] } }
            else ctx.sequencersByRollapp r))) := by
    intro ctx1 sbr h1 h2 hu hc
    refine ⟨h1, (GetRollapp ctx msg.RollappId).1, GetRollapp_true ctx _ h2, ?_⟩
    rw [hc]
    rcases updateSequencersList_ok ctx _ msg ctx1 sbr hu with ⟨hf, hlt, h3, h4⟩ | ⟨hf, h3, h4⟩
    · right
      cases hs : ctx.sequencersByRollapp msg.RollappId with
      | none => rw [GetSequencersByRollapp_none ctx _ hs] at hf; simp at hf
      | some old =>
        rw [GetSequencersByRollapp_some ctx _ old hs] at hlt h4
        simp only at hlt h4
        refine ⟨old, rfl, hlt, ?_⟩
        subst h3 h4
        simp [SetSequencersByRollapp, SetScheduler, hk _ _ hs]
    · left
      refine ⟨?_, ?_⟩
      · rw [GetSequencersByRollapp_found] at hf
        cases hs : ctx.sequencersByRollapp msg.RollappId with
        | none => rfl
        | some old => rw [hs] at hf; simp at hf
      · subst h3 h4
        simp [SetSequencersByRollapp, SetScheduler]
  cases hr : (CreateSequencer lim ctx msg).2 with
  | error e =>
    rcases CreateSequencer_error_ctx lim ctx msg e hr with hc | ⟨ctx1, sbr, h1, h2, hu, hc⟩
    · left; exact ⟨⟨e, rfl⟩, by rw [hc]⟩
    · right; exact key ctx1 sbr h1 h2 hu (by rw [hc])
  | panic t =>
    obtain ⟨_, ctx1, sbr, h1, h2, hu, hc⟩ := CreateSequencer_panic_ctx lim ctx msg t hr
    right
    exact key ctx1 sbr h1 h2 hu (by rw [hc])
  | ok r =>
    obtain ⟨pk, d, ctx1, sbr, h1, h2, _, _, hu, hc⟩ := CreateSequencer_ok_ctx lim ctx msg r hr
    right
    exact key ctx1 sbr h1 h2 hu (by rw [hc]; rfl)

theorem uint64ToInt_le (u : Nat) : uint64ToInt u ≤ (u : Int) := by
  unfold uint64ToInt
  have := Nat.mod_le u (2 ^ 64)
  split <;> omega

theorem WellKeyed_step (lim : DescriptionLimits) (ctx : Ctx) (msg : MsgCreateSequencer)
    (hk : WellKeyed ctx) : WellKeyed (CreateSequencer lim ctx msg).1 := by
  intro r sbr hs
  rcases CreateSequencer_roster lim ctx msg hk with ⟨_, hc⟩ | ⟨_, rollapp, _, ⟨_, hc⟩ | ⟨old, _, _, hc⟩⟩
  · rw [hc] at hs; exact hk r sbr hs
  · rw [hc] at hs
    by_cases hr : r = msg.RollappId
    · simp [hr] at hs; rw [← hs, hr]
    · simp [hr] at hs; exact hk r sbr hs
  · rw [hc] at hs
    by_cases hr : r = msg.RollappId
    · simp [hr] at hs; rw [← hs, hr]
    · simp [hr] at hs; exact hk r sbr hs

theorem RostersBounded_step (lim : DescriptionLimits) (ctx : Ctx) (msg : MsgCreateSequencer)
    (hk : WellKeyed ctx) (hb : RostersBounded ctx) :
    RostersBounded (CreateSequencer lim ctx msg).1 := by
  intro r sbr rollapp hs hd
  rw [CreateSequencer_rollapps] at hd
  rcases CreateSequencer_roster lim ctx msg hk with
    ⟨_, hc⟩ | ⟨_, rollapp2, hd2, ⟨_, hc⟩ | ⟨old, _, hlt, hc⟩⟩
  · rw [hc] at hs; exact hb r sbr rollapp hs hd
  · rw [hc] at hs
    by_cases hr : r = msg.RollappId
    · simp [hr] at hs; left; rw [← hs]; simp
    · simp [hr] at hs; exact hb r sbr rollapp hs hd
  · rw [hc] at hs
    by_cases hr : r = msg.RollappId
    · simp [hr] at hs
      rw [hr, hd2] at hd
      simp at hd
      right
      rw [← hs, ← hd]
      simp
      omega
    · simp [hr] at hs; exact hb r sbr rollapp hs hd

theorem runMsgs_invariants (lim : DescriptionLimits) (msgs : List MsgCreateSequencer) (ctx : Ctx)
    (hk : WellKeyed ctx) (hb : RostersBounded ctx) :
    WellKeyed (runMsgs lim ctx msgs) ∧ RostersBounded (runMsgs lim ctx msgs) := by
  induction msgs generalizing ctx with
  | nil => exact ⟨hk, hb⟩
  | cons m rest ih =>
    unfold runMsgs
    exact ih _ (WellKeyed_step lim ctx m hk) (RostersBounded_step lim ctx m hk hb)

theorem emptyStores_invariants (rollapps : String → Option Rollapp) :
    WellKeyed (emptyStores rollapps) ∧ RostersBounded (emptyStores rollapps) := by
  constructor
  · intro r sbr h; simp [emptyStores] at h
  · intro r sbr rollapp h; simp [emptyStores] at h

/-- A call never shortens a roster, and a successful call under a rollapp makes that
rollapp's roster one longer. -/
theorem rosterLength_step (lim : DescriptionLimits) (ctx : Ctx) (msg : MsgCreateSequencer)
    (hk : WellKeyed ctx) (r : String) :
    rosterLength ctx r +
        (if msg.RollappId = r ∧ (CreateSequencer lim ctx msg).2 = .ok {} then 1 else 0) ≤
      rosterLength (CreateSequencer lim ctx msg).1 r := by
  unfold rosterLength
  rcases CreateSequencer_roster lim ctx msg hk with
    ⟨⟨e, he⟩, hc⟩ | ⟨_, rollapp2, hd2, ⟨hn, hc⟩ | ⟨old, ho, hlt, hc⟩⟩
  · simp [GetSequencersByRollapp, hc, he]
  · by_cases hr : r = msg.RollappId
    · subst hr
      simp [GetSequencersByRollapp, hc, hn, SequencersByRollapp.zero]
      split <;> simp
    · have hr2 : ¬ msg.RollappId = r := fun h => hr h.symm
      simp [GetSequencersByRollapp, hc, hr, hr2]
  · by_cases hr : r = msg.RollappId
    · subst hr
      simp [GetSequencersByRollapp, hc, ho]
      split <;> simp
    · have hr2 : ¬ msg.RollappId = r := fun h => hr h.symm
      simp [GetSequencersByRollapp, hc, hr, hr2]

theorem countRegistered_le (lim : DescriptionLimits) (msgs : List MsgCreateSequencer) (ctx : Ctx)
    (hk : WellKeyed ctx) (r : String) :
    rosterLength ctx r + countRegistered lim ctx msgs r ≤ rosterLength (runMsgs lim ctx msgs) r := by
  induction msgs generalizing ctx with
  | nil => simp [countRegistered, runMsgs]
  | cons m rest ih =>
    unfold runMsgs countRegistered
    have h1 := rosterLength_step lim ctx m hk r
    have h2 := ih _ (WellKeyed_step lim ctx m hk)
    omega

theorem scanPermissioned_iff (l : List String) (a : String) :
    scanPermissioned l a = true ↔ a ∈ l := by
  induction l with
  | nil => simp [scanPermissioned]
  | cons b rest ih =>
    unfold scanPermissioned
    by_cases hb : b = a
    · simp [hb]
    · have hb2 : ¬ a = b := fun h => hb h.symm
      simp [hb, hb2, ih]

/-- Capacity bound for a capacity of at least one: for a rollapp R of the directory with
`MaxSequencers = M ≥ 1`, after any sequence of calls from empty stores the roster
of R, if there is one, has at most M addresses; at most M calls under R have
succeeded; and when the roster holds exactly M addresses, a request under R for
an unregistered address that passes the permission check fails with
ErrMaxSequencersLimit and leaves the context, hence the roster, as it was. -/
theorem capacity_bound (lim : DescriptionLimits) (rollapps : String → Option Rollapp)
    (rollappId : String) (rollapp : Rollapp) (msgs : List MsgCreateSequencer)
    (hdir : rollapps rollappId = some rollapp) (hM : 1 ≤ rollapp.MaxSequencers) :
    (∀ sbr, (runMsgs lim (emptyStores rollapps) msgs).sequencersByRollapp rollappId = some sbr →
      sbr.Sequencers.Addresses.length ≤ rollapp.MaxSequencers) ∧
    countRegistered lim (emptyStores rollapps) msgs rollappId ≤ rollapp.MaxSequencers ∧
    (∀ sbr msg,
      (runMsgs lim (emptyStores rollapps) msgs).sequencersByRollapp rollappId = some sbr →
      sbr.Sequencers.Addresses.length = rollapp.MaxSequencers →
      msg.RollappId = rollappId →
      (GetSequencer (runMsgs lim (emptyStores rollapps) msgs) msg.SequencerAddress).2 = false →
      (rollapp.PermissionedAddresses.Addresses = [] ∨
        msg.SequencerAddress ∈ rollapp.PermissionedAddresses.Addresses) →
      CreateSequencer lim (runMsgs lim (emptyStores rollapps) msgs) msg =
        (runMsgs lim (emptyStores rollapps) msgs, .error Error.ErrMaxSequencersLimit)) := by
  obtain ⟨hk0, hb0⟩ := emptyStores_invariants rollapps
  obtain ⟨hk, hb⟩ := runMsgs_invariants lim msgs _ hk0 hb0
  have hd : (runMsgs lim (emptyStores rollapps) msgs).rollapps rollappId = some rollapp := by
    rw [runMsgs_rollapps]; exact hdir
  have hlen : ∀ sbr,
      (runMsgs lim (emptyStores rollapps) msgs).sequencersByRollapp rollappId = some sbr →
      sbr.Sequencers.Addresses.length ≤ rollapp.MaxSequencers := by
    intro sbr hs
    rcases hb rollappId sbr rollapp hs hd with h | h
    · omega
    · have := uint64ToInt_le rollapp.MaxSequencers
      omega
  refine ⟨hlen, ?_, ?_⟩
  · have hc := countRegistered_le lim msgs (emptyStores rollapps) hk0 rollappId
    have h0 : rosterLength (emptyStores rollapps) rollappId = 0 := by
      simp [rosterLength, GetSequencersByRollapp, emptyStores, SequencersByRollapp.zero]
    have h1 : rosterLength (runMsgs lim (emptyStores rollapps) msgs) rollappId ≤
        rollapp.MaxSequencers := by
      unfold rosterLength
      cases hs : (runMsgs lim (emptyStores rollapps) msgs).sequencersByRollapp rollappId with
      | none => simp [GetSequencersByRollapp, hs, SequencersByRollapp.zero]
      | some sbr => simpa [GetSequencersByRollapp, hs] using hlen sbr hs
    omega
  · intro sbr msg hs hfull hR hreg hperm
    subst hR
    have hg := GetRollapp_some _ _ _ hd
    have heq : uint64ToInt rollapp.MaxSequencers = (sbr.Sequencers.Addresses.length : Int) := by
      rcases hb msg.RollappId sbr rollapp hs hd with h | h
      · have h1 : rollapp.MaxSequencers = 1 := by omega
        rw [hfull, h1]
        decide
      · have := uint64ToInt_le rollapp.MaxSequencers
        omega
    rw [CreateSequencer_admitted lim _ msg hreg (by rw [hg])]
    · rw [hg]
      simp [updateSequencersList, GetSequencersByRollapp_some _ _ _ hs, heq]
    · rw [hg]
      simp only
      rintro ⟨hpos, hscan⟩
      rcases hperm with hp | hp
      · rw [hp] at hpos; simp at hpos
      · rw [(scanPermissioned_iff _ _).2 hp] at hscan; simp at hscan

/-- Scenario A under the capacity bound: under `R1`, of capacity two, two registrations are counted over
three requests, the roster holds two addresses, and the third request fails
with ErrMaxSequencersLimit leaving the context as it was. -/
theorem capacity_bound_scenario :
    exRollapps "R1" =
      some { RollappId := "R1", MaxSequencers := 2, PermissionedAddresses := { Addresses := [] } } ∧
    countRegistered exLimits (emptyStores exRollapps)
      [exMsg "seq1" "R1", exMsg "seq2" "R1", exMsg "seq3" "R1"] "R1" ≤ 2 ∧
    CreateSequencer exLimits
        (runMsgs exLimits (emptyStores exRollapps) [exMsg "seq1" "R1", exMsg "seq2" "R1"])
        (exMsg "seq3" "R1") =
      (runMsgs exLimits (emptyStores exRollapps) [exMsg "seq1" "R1", exMsg "seq2" "R1"],
        .error Error.ErrMaxSequencersLimit) :=
  ⟨by decide,
   (capacity_bound exLimits exRollapps "R1"
      { RollappId := "R1", MaxSequencers := 2, PermissionedAddresses := { Addresses := [] } }
      [exMsg "seq1" "R1", exMsg "seq2" "R1", exMsg "seq3" "R1"] (by decide) (by decide)).2.1,
   (capacity_bound exLimits exRollapps "R1"
      { RollappId := "R1", MaxSequencers := 2, PermissionedAddresses := { Addresses := [] } }
      [exMsg "seq1" "R1", exMsg "seq2" "R1"] (by decide) (by decide)).2.2
      { RollappId := "R1", Sequencers := { Addresses := ["seq1", "seq2"] } }
      (exMsg "seq3" "R1") (by decide) (by decide) (by decide) (by decide) (Or.inl (by decide))⟩

theorem uint64ToInt_small (u : Nat) (h : u < 2 ^ 63) : uint64ToInt u = (u : Int) := by
  unfold uint64ToInt
  have h2 : u % 2 ^ 64 = u := Nat.mod_eq_of_lt (by omega)
  rw [h2, if_pos h]

/-- The capacity decision of lines 53 to 61 for a `MaxSequencers` below `2 ^ 63`, the
values that `int` keeps: for an unregistered address that passes the permission
check, with a roster of `current` addresses stored for the rollapp, the call
fails with the wrapped ErrLogic naming the rollapp id, the maximum and `current`
when `current` exceeds the maximum, fails with ErrMaxSequencersLimit when the two
are equal, and returns neither error when `current` is below the maximum. -/
theorem capacity_decision_small_max (lim : DescriptionLimits) (ctx : Ctx)
    (msg : MsgCreateSequencer) (rollapp : Rollapp) (sbr : SequencersByRollapp)
    (hreg : (GetSequencer ctx msg.SequencerAddress).2 = false)
    (hdir : ctx.rollapps msg.RollappId = some rollapp)
    (hperm : rollapp.PermissionedAddresses.Addresses = [] ∨
      msg.SequencerAddress ∈ rollapp.PermissionedAddresses.Addresses)
    (hs : ctx.sequencersByRollapp msg.RollappId = some sbr)
    (hsmall : rollapp.MaxSequencers < 2 ^ 63) :
    (sbr.Sequencers.Addresses.length > rollapp.MaxSequencers →
      CreateSequencer lim ctx msg =
        (ctx, .error (Error.Wrapf Error.ErrLogic
          ("rollapp id: " ++ msg.RollappId ++ " cannot have more than " ++
            fmtD (rollapp.MaxSequencers : Int) ++ " sequencers but got: " ++
            fmtD (sbr.Sequencers.Addresses.length : Int))))) ∧
    (sbr.Sequencers.Addresses.length = rollapp.MaxSequencers →
      CreateSequencer lim ctx msg = (ctx, .error Error.ErrMaxSequencersLimit)) ∧
    (sbr.Sequencers.Addresses.length < rollapp.MaxSequencers →
      (CreateSequencer lim ctx msg).2 ≠ .error Error.ErrMaxSequencersLimit ∧
      ∀ t, (CreateSequencer lim ctx msg).2 ≠ .error (Error.Wrapf Error.ErrLogic t)) := by
  have hg := GetRollapp_some _ _ _ hdir
  have hadm := CreateSequencer_admitted lim ctx msg hreg (by rw [hg]) (by
    rw [hg]
    simp only
    rintro ⟨hpos, hscan⟩
    rcases hperm with hp | hp
    · rw [hp] at hpos; simp at hpos
    · rw [(scanPermissioned_iff _ _).2 hp] at hscan; simp at hscan)
  rw [hg] at hadm
  simp only at hadm
  have hi := uint64ToInt_small _ hsmall
  refine ⟨?_, ?_, ?_⟩
  · intro hgt
    rw [hadm]
    have : (rollapp.MaxSequencers : Int) < (sbr.Sequencers.Addresses.length : Int) := by omega
    simp [updateSequencersList, GetSequencersByRollapp_some _ _ _ hs, hi, this, overCapacityText]
  · intro heq
    rw [hadm]
    simp [updateSequencersList, GetSequencersByRollapp_some _ _ _ hs, hi, heq]
  · intro hlt
    have h1 : ¬ (rollapp.MaxSequencers : Int) < (sbr.Sequencers.Addresses.length : Int) := by omega
    have h2 : ¬ (rollapp.MaxSequencers : Int) = (sbr.Sequencers.Addresses.length : Int) := by omega
    have hne : ∀ e, (CreateSequencer lim ctx msg).2 = .error e →
        e ≠ Error.ErrMaxSequencersLimit ∧ ∀ t, e ≠ Error.Wrapf Error.ErrLogic t := by
      intro e he
      rw [hadm] at he
      simp [updateSequencersList, GetSequencersByRollapp_some _ _ _ hs, hi, h1, h2] at he
      obtain ⟨t, ht⟩ := storeSequencer_error _ _ _ _ e he
      rcases ht with ht | ht | ht <;> subst ht <;> simp
    constructor
    · intro he; exact (hne _ he).1 rfl
    · intro t he; exact (hne _ he).2 t rfl

/-- The errors of a call that got past the permission check: ErrMaxSequencersLimit or a
wrapped error. -/
theorem admitted_error (lim : DescriptionLimits) (ctx : Ctx) (msg : MsgCreateSequencer)
    (e : Error)
    (hadm : CreateSequencer lim ctx msg =
      match updateSequencersList ctx (GetRollapp ctx msg.RollappId).1 msg with
      | .error err => (ctx, .error err)
      | .ok (ctx1, sequencersByRollapp) => storeSequencer lim ctx1 sequencersByRollapp msg)
    (he : (CreateSequencer lim ctx msg).2 = .error e) :
    e = Error.ErrMaxSequencersLimit ∨ ∃ b t, e = Error.Wrapf b t := by
  rw [hadm] at he
  cases hu : updateSequencersList ctx (GetRollapp ctx msg.RollappId).1 msg with
  | error err =>
    rw [hu] at he
    simp at he
    subst he
    rcases (updateSequencersList_error ctx _ msg err hu).2 with ⟨_, h⟩ | ⟨_, h⟩
    · exact Or.inr ⟨_, _, h⟩
    · exact Or.inl h
  | ok p =>
    obtain ⟨ctx1, sbr⟩ := p
    rw [hu] at he
    simp only at he
    obtain ⟨t, ht⟩ := storeSequencer_error lim ctx1 sbr msg e he
    rcases ht with ht | ht | ht <;> exact Or.inr ⟨_, _, ht⟩

/-- The condition of lines 30 and 41 in terms of list membership. -/
theorem permission_condition (l : List String) (a : String) :
    (l.length > 0 ∧ scanPermissioned l a = false) ↔ (l ≠ [] ∧ a ∉ l) := by
  rw [← scanPermissioned_iff l a]
  cases l <;> simp

theorem updateSequencersList_capacityCheck (ctx : Ctx) (msg : MsgCreateSequencer) :
    match updateSequencersList ctx (GetRollapp ctx msg.RollappId).1 msg with
    | .error e => capacityCheck ctx msg = some e
    | .ok _ => capacityCheck ctx msg = none := by
  unfold updateSequencersList capacityCheck
  simp only
  split_ifs <;> simp

theorem storeSequencer_checks (lim : DescriptionLimits) (ctx : Ctx) (sbr : SequencersByRollapp)
    (msg : MsgCreateSequencer) (value : CachedValue)
    (hv : GetCachedValue msg.Pubkey = some value) :
    (storeSequencer lim ctx sbr msg).2 =
      match publicKeyCheck value with
      | some e => .error e
      | none =>
        match descriptionCheck lim msg with
        | some e => .error e
        | none => .ok {} := by
  unfold storeSequencer publicKeyCheck descriptionCheck
  simp only [hv]
  cases value with
  | nil => simp [assertPubKey]
  | other t => simp [assertPubKey]
  | pubKey pk =>
    cases hd : msg.Description.EnsureLength lim with
    | error err => simp [assertPubKey, NewAnyWithValue]
    | ok d => simp [assertPubKey, NewAnyWithValue]

/-- A call whose first three checks pass goes on to lines 49 to 106. -/
theorem checks_admitted (lim : DescriptionLimits) (ctx : Ctx) (msg : MsgCreateSequencer)
    (h1 : uniquenessCheck ctx msg = none) (h2 : rollappExistenceCheck ctx msg = none)
    (h3 : permissionCheck ctx msg = none) :
    CreateSequencer lim ctx msg =
      match updateSequencersList ctx (GetRollapp ctx msg.RollappId).1 msg with
      | .error err => (ctx, .error err)
      | .ok (ctx1, sequencersByRollapp) => storeSequencer lim ctx1 sequencersByRollapp msg := by
  have hreg : (GetSequencer ctx msg.SequencerAddress).2 = false := by
    unfold uniquenessCheck at h1
    split_ifs at h1 with hu
    simpa using hu
  have hfound : (GetRollapp ctx msg.RollappId).2 = true := by
    unfold rollappExistenceCheck at h2
    split_ifs at h2 with hu
    exact hu
  have hperm : ¬ ((GetRollapp ctx msg.RollappId).1.PermissionedAddresses.Addresses.length > 0 ∧
      scanPermissioned (GetRollapp ctx msg.RollappId).1.PermissionedAddresses.Addresses
        msg.SequencerAddress = false) := by
    unfold permissionCheck at h3
    split_ifs at h3 with hu
    exact hu
  exact CreateSequencer_admitted lim ctx msg hreg hfound hperm

/-- A failed capacity check gives its error, whatever the envelope and the description. -/
theorem capacity_error_returned (lim : DescriptionLimits) (ctx : Ctx) (msg : MsgCreateSequencer)
    (h1 : uniquenessCheck ctx msg = none) (h2 : rollappExistenceCheck ctx msg = none)
    (h3 : permissionCheck ctx msg = none) (e : Error) (h4 : capacityCheck ctx msg = some e) :
    CreateSequencer lim ctx msg = (ctx, .error e) := by
  rw [checks_admitted lim ctx msg h1 h2 h3]
  have hcap := updateSequencersList_capacityCheck ctx msg
  cases hu : updateSequencersList ctx (GetRollapp ctx msg.RollappId).1 msg with
  | error err =>
    rw [hu] at hcap
    simp only at hcap
    rw [h4] at hcap
    simp at hcap
    rw [hcap]
  | ok p =>
    rw [hu] at hcap
    simp only at hcap
    rw [h4] at hcap
    simp at hcap

/-- A call that passes the first four checks goes on to lines 80 to 106 with the
context and the roster of lines 49 to 79. -/
theorem checks_storeSequencer (lim : DescriptionLimits) (ctx : Ctx) (msg : MsgCreateSequencer)
    (h1 : uniquenessCheck ctx msg = none) (h2 : rollappExistenceCheck ctx msg = none)
    (h3 : permissionCheck ctx msg = none) (h4 : capacityCheck ctx msg = none) :
    ∃ ctx1 sbr,
      updateSequencersList ctx (GetRollapp ctx msg.RollappId).1 msg = .ok (ctx1, sbr) ∧
      CreateSequencer lim ctx msg = storeSequencer lim ctx1 sbr msg := by
  have hadm := checks_admitted lim ctx msg h1 h2 h3
  have hcap := updateSequencersList_capacityCheck ctx msg
  cases hu : updateSequencersList ctx (GetRollapp ctx msg.RollappId).1 msg with
  | error err =>
    rw [hu] at hcap
    simp only at hcap
    rw [h4] at hcap
    simp at hcap
  | ok p =>
    obtain ⟨ctx1, sbr⟩ := p
    rw [hu] at hadm
    exact ⟨ctx1, sbr, rfl, hadm⟩

/-- A request without envelope that passes the first four checks ends in the panic of
line 82, after the writes of lines 69 or 78 and of line 80. -/
theorem no_envelope_panics (lim : DescriptionLimits) (ctx : Ctx) (msg : MsgCreateSequencer)
    (h1 : uniquenessCheck ctx msg = none) (h2 : rollappExistenceCheck ctx msg = none)
    (h3 : permissionCheck ctx msg = none) (h4 : capacityCheck ctx msg = none)
    (hv : GetCachedValue msg.Pubkey = none) :
    (CreateSequencer lim ctx msg).2 = .panic nilDereference := by
  obtain ⟨ctx1, sbr, _, hc⟩ := checks_storeSequencer lim ctx msg h1 h2 h3 h4
  rw [hc]
  rcases storeSequencer_cases lim ctx1 sbr msg with ⟨_, hs⟩ | ⟨_, hn, _, _⟩ |
    ⟨_, _, hn, _, _⟩ | ⟨_, _, hn, _, _⟩
  · rw [hs]
  · rw [hv] at hn; cases hn
  · rw [hv] at hn; cases hn
  · rw [hv] at hn; cases hn

/-- The result of a call for a request with an envelope is the error of the first of
the six checks that fails, and success when none fails. -/
theorem CreateSequencer_firstFailure (lim : DescriptionLimits) (ctx : Ctx)
    (msg : MsgCreateSequencer) (value : CachedValue)
    (hv : GetCachedValue msg.Pubkey = some value) :
    (CreateSequencer lim ctx msg).2 =
      match firstFailure lim ctx msg value with
      | some e => .error e
      | none => .ok {} := by
  by_cases h1 : (GetSequencer ctx msg.SequencerAddress).2 = true
  · rw [CreateSequencer_registered lim ctx msg h1]
    simp [firstFailure, checksInOrder, uniquenessCheck, h1]
  · have h1f : (GetSequencer ctx msg.SequencerAddress).2 = false := by simpa using h1
    by_cases h2 : (GetRollapp ctx msg.RollappId).2 = true
    · by_cases h3 : ((GetRollapp ctx msg.RollappId).1.PermissionedAddresses.Addresses.length > 0 ∧
        scanPermissioned (GetRollapp ctx msg.RollappId).1.PermissionedAddresses.Addresses
          msg.SequencerAddress = false)
      · rw [CreateSequencer_notPermissioned lim ctx msg h1f h2 h3.1 h3.2]
        simp only [firstFailure, checksInOrder, uniquenessCheck, rollappExistenceCheck,
          permissionCheck, h1, h2, h3, List.findSome?]
        simp
      · rw [CreateSequencer_admitted lim ctx msg h1f h2 h3]
        have hcap := updateSequencersList_capacityCheck ctx msg
        cases hu : updateSequencersList ctx (GetRollapp ctx msg.RollappId).1 msg with
        | error err =>
          rw [hu] at hcap
          simp only at hcap
          simp only [firstFailure, checksInOrder, uniquenessCheck, rollappExistenceCheck,
            permissionCheck, h1, h2, h3, hcap, List.findSome?]
          simp
        | ok p =>
          obtain ⟨ctx1, sbr⟩ := p
          rw [hu] at hcap
          simp only at hcap
          simp only [storeSequencer_checks lim ctx1 sbr msg value hv]
          simp only [firstFailure, checksInOrder, uniquenessCheck, rollappExistenceCheck,
            permissionCheck, h1, h2, h3, hcap, List.findSome?]
          cases publicKeyCheck value <;> cases descriptionCheck lim msg <;> simp
    · have h2f : (GetRollapp ctx msg.RollappId).2 = false := by simpa using h2
      rw [CreateSequencer_unknownRollapp lim ctx msg h1f h2f]
      simp only [firstFailure, checksInOrder, uniquenessCheck, rollappExistenceCheck,
        h1, h2, List.findSome?]
      simp

theorem uint64ToInt_large (u : Nat) (h1 : 2 ^ 63 ≤ u) (h2 : u < 2 ^ 64) :
    uint64ToInt u = (u : Int) - 2 ^ 64 := by
  unfold uint64ToInt
  have h3 : u % 2 ^ 64 = u := Nat.mod_eq_of_lt h2
  rw [h3, if_neg (by omega)]

/-- The capacity decision of lines 53 to 61 for a `MaxSequencers` from `2 ^ 63` on, the
values that `int` turns negative: for an unregistered address that passes the
permission check, with any roster stored for the rollapp, the call fails with
the wrapped ErrLogic, whatever the length of the roster. -/
theorem capacity_decision_large_max (lim : DescriptionLimits) (ctx : Ctx)
    (msg : MsgCreateSequencer) (rollapp : Rollapp) (sbr : SequencersByRollapp)
    (hreg : (GetSequencer ctx msg.SequencerAddress).2 = false)
    (hdir : ctx.rollapps msg.RollappId = some rollapp)
    (hperm : rollapp.PermissionedAddresses.Addresses = [] ∨
      msg.SequencerAddress ∈ rollapp.PermissionedAddresses.Addresses)
    (hs : ctx.sequencersByRollapp msg.RollappId = some sbr)
    (hbig : 2 ^ 63 ≤ rollapp.MaxSequencers) (h64 : rollapp.MaxSequencers < 2 ^ 64) :
    uint64ToInt rollapp.MaxSequencers < 0 ∧
    CreateSequencer lim ctx msg =
      (ctx, .error (Error.Wrapf Error.ErrLogic
        (overCapacityText msg.RollappId (uint64ToInt rollapp.MaxSequencers)
          (sbr.Sequencers.Addresses.length : Int)))) := by
  have hg := GetRollapp_some _ _ _ hdir
  have hadm := CreateSequencer_admitted lim ctx msg hreg (by rw [hg]) (by
    rw [hg]
    simp only
    rintro ⟨hpos, hscan⟩
    rcases hperm with hp | hp
    · rw [hp] at hpos; simp at hpos
    · rw [(scanPermissioned_iff _ _).2 hp] at hscan; simp at hscan)
  rw [hg] at hadm
  simp only at hadm
  have hi := uint64ToInt_large _ hbig h64
  have hneg : uint64ToInt rollapp.MaxSequencers < 0 := by rw [hi]; omega
  have hlt : uint64ToInt rollapp.MaxSequencers < (sbr.Sequencers.Addresses.length : Int) := by
    omega
  refine ⟨hneg, ?_⟩
  rw [hadm]
  simp [updateSequencersList, GetSequencersByRollapp_some _ _ _ hs, hlt]

/-- The context left by a call that passes the first four checks and fails the public-key
or the description check, when every roster is stored under its own id: the
sequencer store is as before, while the roster store holds the roster of the
request's rollapp with the address appended and the scheduler store holds the
record of the address, as lines 63 to 80 wrote them. -/
theorem late_failure_ctx (lim : DescriptionLimits) (ctx : Ctx) (msg : MsgCreateSequencer)
    (value : CachedValue) (hk : WellKeyed ctx)
    (h1 : uniquenessCheck ctx msg = none) (h2 : rollappExistenceCheck ctx msg = none)
    (h3 : permissionCheck ctx msg = none) (h4 : capacityCheck ctx msg = none)
    (hv : GetCachedValue msg.Pubkey = some value)
    (h5 : publicKeyCheck value ≠ none ∨ descriptionCheck lim msg ≠ none) :
    (∃ e, (CreateSequencer lim ctx msg).2 = .error e) ∧
    (CreateSequencer lim ctx msg).1.sequencers = ctx.sequencers ∧
    (CreateSequencer lim ctx msg).1.sequencersByRollapp msg.RollappId =
      some { RollappId := msg.RollappId,
             Sequencers := { Addresses :=
               (GetSequencersByRollapp ctx msg.RollappId).1.Sequencers.Addresses ++
                 [msg.SequencerAddress] } } ∧
    (CreateSequencer lim ctx msg).1.sequencersByRollapp msg.RollappId ≠
      ctx.sequencersByRollapp msg.RollappId ∧
    (CreateSequencer lim ctx msg).1.schedulers msg.SequencerAddress =
      some { SequencerAddress := msg.SequencerAddress,
             Status := if (GetSequencersByRollapp ctx msg.RollappId).2 = true
               then OperatingStatus.Inactive else OperatingStatus.Proposer } := by
  obtain ⟨ctx1, sbr, hu, hadm⟩ := checks_storeSequencer lim ctx msg h1 h2 h3 h4
  cases hp0 : (ctx1, sbr) with
  | mk c1 s1 =>
    cases hp0
    have hres : ∃ e, (storeSequencer lim ctx1 sbr msg).2 = .error e := by
      rw [storeSequencer_checks lim ctx1 sbr msg value hv]
      rcases h5 with h5 | h5
      · cases hp : publicKeyCheck value with
        | none => exact absurd hp h5
        | some e => exact ⟨e, rfl⟩
      · cases hp : publicKeyCheck value with
        | some e => exact ⟨e, rfl⟩
        | none =>
          cases hd : descriptionCheck lim msg with
          | none => exact absurd hd h5
          | some e => exact ⟨e, rfl⟩
    obtain ⟨e, he⟩ := hres
    have hctx := storeSequencer_fst_error lim ctx1 sbr msg e he
    rw [hadm, hctx]
    refine ⟨⟨e, he⟩, ?_⟩
    rcases updateSequencersList_ok ctx _ msg ctx1 sbr hu with ⟨hf, _, hc1, hsbr⟩ | ⟨hf, hc1, hsbr⟩
    · cases hs : ctx.sequencersByRollapp msg.RollappId with
      | none => rw [GetSequencersByRollapp_none ctx _ hs] at hf; simp at hf
      | some old =>
        rw [GetSequencersByRollapp_some ctx _ old hs] at hsbr ⊢
        simp only at hsbr ⊢
        have hkey := hk _ _ hs
        subst hc1 hsbr
        simp [SetSequencersByRollapp, SetScheduler, hkey]
        intro h
        have := congrArg (fun s => s.Sequencers.Addresses.length) h
        simp at this
    · have hs : ctx.sequencersByRollapp msg.RollappId = none := by
        rw [GetSequencersByRollapp_found] at hf
        cases hh : ctx.sequencersByRollapp msg.RollappId with
        | none => rfl
        | some old => rw [hh] at hf; simp at hf
      rw [GetSequencersByRollapp_none ctx _ hs]
      subst hc1 hsbr
      simp [SetSequencersByRollapp, SetScheduler, hs, SequencersByRollapp.zero]

/-- The context after a call is the context before it, or that context after the
scheduler write, the roster write and, on success, the sequencer write. -/
theorem CreateSequencer_ctx_shape (lim : DescriptionLimits) (ctx : Ctx)
    (msg : MsgCreateSequencer) :
    (CreateSequencer lim ctx msg).1 = ctx ∨
    ∃ ctx1 sbr,
      updateSequencersList ctx (GetRollapp ctx msg.RollappId).1 msg = .ok (ctx1, sbr) ∧
      ((CreateSequencer lim ctx msg).1 = SetSequencersByRollapp ctx1 sbr ∨
       ∃ sequencer, sequencer.SequencerAddress = msg.SequencerAddress ∧
        (CreateSequencer lim ctx msg).1 =
          SetSequencer (SetSequencersByRollapp ctx1 sbr) sequencer) := by
  cases hr : (CreateSequencer lim ctx msg).2 with
  | error e =>
    rcases CreateSequencer_error_ctx lim ctx msg e hr with hc | ⟨ctx1, sbr, _, _, hu, hc⟩
    · exact Or.inl hc
    · exact Or.inr ⟨ctx1, sbr, hu, Or.inl hc⟩
  | panic t =>
    obtain ⟨_, ctx1, sbr, _, _, hu, hc⟩ := CreateSequencer_panic_ctx lim ctx msg t hr
    exact Or.inr ⟨ctx1, sbr, hu, Or.inl hc⟩
  | ok r =>
    obtain ⟨pk, d, ctx1, sbr, _, _, _, _, hu, hc⟩ := CreateSequencer_ok_ctx lim ctx msg r hr
    exact Or.inr ⟨ctx1, sbr, hu, Or.inr ⟨_, rfl, hc⟩⟩

/-- The text of the invalid-type error never names the type held in the envelope: a call
that passes the first four checks with an envelope whose cached value is not a
public key fails with the wrapped ErrInvalidType whose text ends in `<nil>`. -/
theorem invalid_type_reports_nil (lim : DescriptionLimits) (ctx : Ctx) (msg : MsgCreateSequencer)
    (value : CachedValue)
    (h1 : uniquenessCheck ctx msg = none) (h2 : rollappExistenceCheck ctx msg = none)
    (h3 : permissionCheck ctx msg = none) (h4 : capacityCheck ctx msg = none)
    (hv : GetCachedValue msg.Pubkey = some value)
    (h5 : ∀ pk, value ≠ CachedValue.pubKey pk) :
    (CreateSequencer lim ctx msg).2 =
      .error (Error.Wrapf Error.ErrInvalidType "Expecting cryptotypes.PubKey, got <nil>") := by
  rw [CreateSequencer_firstFailure lim ctx msg value hv]
  have hp : publicKeyCheck value =
      some (Error.Wrapf Error.ErrInvalidType "Expecting cryptotypes.PubKey, got <nil>") := by
    unfold publicKeyCheck
    cases value with
    | nil => simp [assertPubKey, invalidTypeText, fmtT]
    | other t => simp [assertPubKey, invalidTypeText, fmtT]
    | pubKey pk => exact absurd rfl (h5 pk)
  simp [firstFailure, checksInOrder, h1, h2, h3, h4, hp]

/-- The three writes of a successful call, in terms of the stores before it. -/
theorem CreateSequencer_ok_shape (lim : DescriptionLimits) (ctx : Ctx) (msg : MsgCreateSequencer)
    (r : MsgCreateSequencerResponse) (hok : (CreateSequencer lim ctx msg).2 = .ok r)
    (hk : WellKeyed ctx) :
    ctx.sequencers msg.SequencerAddress = none ∧
    ∃ (l : List String) (sequencer : Sequencer),
      ((ctx.sequencersByRollapp msg.RollappId = none ∧ l = []) ∨
        (∃ old, ctx.sequencersByRollapp msg.RollappId = some old ∧
          l = old.Sequencers.Addresses)) ∧
      sequencer.RollappId = msg.RollappId ∧
      (CreateSequencer lim ctx msg).1.rollapps = ctx.rollapps ∧
      ((CreateSequencer lim ctx msg).1.sequencers = fun a =>
        if a = msg.SequencerAddress then some sequencer else ctx.sequencers a) ∧
      ((CreateSequencer lim ctx msg).1.sequencersByRollapp = fun x =>
        if x = msg.RollappId then
          some { RollappId := msg.RollappId,
                 Sequencers := { Addresses := l ++ [msg.SequencerAddress] } }
        else ctx.sequencersByRollapp x) ∧
      ((CreateSequencer lim ctx msg).1.schedulers = fun a =>
        if a = msg.SequencerAddress then
          some { SequencerAddress := msg.SequencerAddress,
                 Status := if ctx.sequencersByRollapp msg.RollappId = none
                   then OperatingStatus.Proposer else OperatingStatus.Inactive }
        else ctx.schedulers a) := by
  obtain ⟨pk, d, ctx1, sbr, h1, _, _, _, hu, hc⟩ := CreateSequencer_ok_ctx lim ctx msg r hok
  have hreg : ctx.sequencers msg.SequencerAddress = none := by
    rw [GetSequencer_found] at h1
    cases hs : ctx.sequencers msg.SequencerAddress with
    | none => rfl
    | some s => rw [hs] at h1; simp at h1
  refine ⟨hreg, ?_⟩
  rw [hc]
  rcases updateSequencersList_ok ctx _ msg ctx1 sbr hu with ⟨hf, _, h2, h3⟩ | ⟨hf, h2, h3⟩
  · cases hs : ctx.sequencersByRollapp msg.RollappId with
    | none => rw [GetSequencersByRollapp_none ctx _ hs] at hf; simp at hf
    | some old =>
      rw [GetSequencersByRollapp_some ctx _ old hs] at h3
      simp only at h3
      have hkey := hk _ _ hs
      subst h2 h3
      refine ⟨old.Sequencers.Addresses, _, Or.inr ⟨old, rfl, rfl⟩, rfl, rfl, rfl, ?_, ?_⟩
      · simp [SetSequencer, SetSequencersByRollapp, SetScheduler, hkey]
      · simp [SetSequencer, SetSequencersByRollapp, SetScheduler]
  · have hs : ctx.sequencersByRollapp msg.RollappId = none := by
      rw [GetSequencersByRollapp_found] at hf
      cases hh : ctx.sequencersByRollapp msg.RollappId with
      | none => rfl
      | some old => rw [hh] at hf; simp at hf
    subst h2 h3
    refine ⟨[], _, Or.inl ⟨hs, rfl⟩, rfl, rfl, rfl, ?_, ?_⟩
    · simp [SetSequencer, SetSequencersByRollapp, SetScheduler]
    · simp [SetSequencer, SetSequencersByRollapp, SetScheduler, hs]

/-- Delivering a message keeps the stores consistent. -/
theorem StoresConsistent_deliver (lim : DescriptionLimits) (ctx : Ctx) (msg : MsgCreateSequencer)
    (h : StoresConsistent ctx) : StoresConsistent (deliver lim ctx msg) := by
  unfold deliver
  cases hr : (CreateSequencer lim ctx msg).2 with
  | error e => exact h
  | panic t => exact h
  | ok r =>
    simp only
    obtain ⟨hk, hnd, hmem, hseq⟩ := h
    obtain ⟨hreg, l, sequencer, hl, hsr, _, hS, hR, hSch⟩ :=
      CreateSequencer_ok_shape lim ctx msg r hr hk
    have hnotin : ∀ x sbr, ctx.sequencersByRollapp x = some sbr →
        msg.SequencerAddress ∉ sbr.Sequencers.Addresses := by
      intro x sbr hx hin
      obtain ⟨⟨s, hs, _⟩, _⟩ := hmem x sbr _ hx hin
      rw [hreg] at hs
      simp at hs
    have hAl : msg.SequencerAddress ∉ l := by
      rcases hl with ⟨_, hl⟩ | ⟨old, ho, hl⟩
      · rw [hl]; simp
      · rw [hl]; exact hnotin _ old ho
    have hlnd : l.Nodup := by
      rcases hl with ⟨_, hl⟩ | ⟨old, ho, hl⟩
      · rw [hl]; simp
      · rw [hl]; exact (hnd _ old ho).1
    have hstatus : (if ctx.sequencersByRollapp msg.RollappId = none
        then OperatingStatus.Proposer else OperatingStatus.Inactive) =
        (if (l ++ [msg.SequencerAddress]).head? = some msg.SequencerAddress
          then OperatingStatus.Proposer else OperatingStatus.Inactive) := by
      rcases hl with ⟨hn, hl⟩ | ⟨old, ho, hl⟩
      · rw [hl, hn]; simp
      · have hne : l ≠ [] := by rw [hl]; exact (hnd _ old ho).2
        rw [ho]
        cases l with
        | nil => exact absurd rfl hne
        | cons b rest =>
          have hb : ¬ b = msg.SequencerAddress := by
            intro hb
            apply hAl
            rw [← hb]
            simp
          simp [hb]
    refine ⟨?_, ?_, ?_, ?_⟩
    · intro x sbr hx
      rw [hR] at hx
      by_cases hxr : x = msg.RollappId
      · simp [hxr] at hx; rw [← hx, hxr]
      · simp [hxr] at hx; exact hk x sbr hx
    · intro x sbr hx
      rw [hR] at hx
      by_cases hxr : x = msg.RollappId
      · simp [hxr] at hx
        rw [← hx]
        simp [List.nodup_append, hlnd, hAl]
      · simp [hxr] at hx; exact hnd x sbr hx
    · intro x sbr a hx ha
      rw [hR] at hx
      rw [hS, hSch]
      by_cases hxr : x = msg.RollappId
      · simp [hxr] at hx
        rw [← hx] at ha ⊢
        simp only at ha ⊢
        by_cases haA : a = msg.SequencerAddress
        · subst haA
          simp only [if_true]
          refine ⟨⟨sequencer, rfl, ?_⟩, ?_⟩
          · rw [hsr, hxr]
          · rw [hstatus]
        · simp only [if_neg haA]
          have hal : a ∈ l := by
            rcases List.mem_append.1 ha with h1 | h1
            · exact h1
            · simp at h1; exact absurd h1 haA
          rcases hl with ⟨_, hl⟩ | ⟨old, ho, hl⟩
          · rw [hl] at hal; simp at hal
          · rw [hl] at hal
            obtain ⟨hs1, hs2⟩ := hmem _ old a ho hal
            refine ⟨?_, ?_⟩
            · rw [hxr]; exact hs1
            · rw [hs2, hl]
              have hne : old.Sequencers.Addresses ≠ [] := (hnd _ old ho).2
              cases hold : old.Sequencers.Addresses with
              | nil => exact absurd hold hne
              | cons b rest => simp
      · simp [hxr] at hx
        have haA : a ≠ msg.SequencerAddress := by
          intro haA
          rw [haA] at ha
          exact hnotin x sbr hx ha
        simp only [if_neg haA]
        exact hmem x sbr a hx ha
    · intro a s hs
      rw [hS] at hs
      rw [hR]
      by_cases haA : a = msg.SequencerAddress
      · simp [haA] at hs
        rw [← hs, hsr, haA]
        simp
      · simp [haA] at hs
        obtain ⟨sbr, hsbr, hin⟩ := hseq a s hs
        by_cases hsr2 : s.RollappId = msg.RollappId
        · rcases hl with ⟨hn, _⟩ | ⟨old, ho, hl⟩
          · rw [hsr2, hn] at hsbr; simp at hsbr
          · rw [hsr2, ho] at hsbr
            simp at hsbr
            rw [hsr2, hl]
            simp
            left
            rw [hsbr]
            exact hin
        · simp [hsr2]
          exact ⟨sbr, hsbr, hin⟩

theorem StoresConsistent_runCommitted (lim : DescriptionLimits) (msgs : List MsgCreateSequencer)
    (ctx : Ctx) (h : StoresConsistent ctx) : StoresConsistent (runCommitted lim ctx msgs) := by
  induction msgs generalizing ctx with
  | nil => exact h
  | cons m rest ih =>
    unfold runCommitted
    exact ih _ (StoresConsistent_deliver lim ctx m h)

theorem StoresConsistent_emptyStores (rollapps : String → Option Rollapp) :
    StoresConsistent (emptyStores rollapps) := by
  refine ⟨?_, ?_, ?_, ?_⟩
  · intro r sbr h; simp [emptyStores] at h
  · intro r sbr h; simp [emptyStores] at h
  · intro r sbr a h; simp [emptyStores] at h
  · intro a s h; simp [emptyStores] at h

/-- Under the host's transaction boundary the stores stay consistent: in every context
reached from empty stores by delivering messages, every roster has no duplicate
address, every address of the roster of a rollapp has a sequencer record with
that rollapp id and a scheduler record, and the address of every sequencer
record is in the roster of the record's rollapp. -/
theorem committed_runs_consistent (lim : DescriptionLimits) (rollapps : String → Option Rollapp)
    (msgs : List MsgCreateSequencer) :
    StoresConsistent (runCommitted lim (emptyStores rollapps) msgs) :=
  StoresConsistent_runCommitted lim msgs _ (StoresConsistent_emptyStores rollapps)

/-- Under the host's transaction boundary every roster has exactly one address of
status Proposer, its first address, and every other address of the roster has
status Inactive. -/
theorem committed_runs_one_proposer (lim : DescriptionLimits)
    (rollapps : String → Option Rollapp) (msgs : List MsgCreateSequencer)
    (r : String) (sbr : SequencersByRollapp)
    (hs : (runCommitted lim (emptyStores rollapps) msgs).sequencersByRollapp r = some sbr) :
    ∃ first, sbr.Sequencers.Addresses.head? = some first ∧
      (runCommitted lim (emptyStores rollapps) msgs).schedulers first =
        some { SequencerAddress := first, Status := OperatingStatus.Proposer } ∧
      ∀ a, a ∈ sbr.Sequencers.Addresses → a ≠ first →
        (runCommitted lim (emptyStores rollapps) msgs).schedulers a =
          some { SequencerAddress := a, Status := OperatingStatus.Inactive } := by
  obtain ⟨_, hnd, hmem, _⟩ := committed_runs_consistent lim rollapps msgs
  have hne := (hnd r sbr hs).2
  cases hl : sbr.Sequencers.Addresses with
  | nil => exact absurd hl hne
  | cons first rest =>
    refine ⟨first, rfl, ?_, ?_⟩
    · have := (hmem r sbr first hs (by rw [hl]; simp)).2
      rw [this, hl]
      simp
    · intro a ha hne2
      have := (hmem r sbr a hs (by rw [hl]; exact ha)).2
      rw [this, hl]
      have : ¬ first = a := fun h => hne2 h.symm
      simp [this]

/-- Scenario A under the host's transaction boundary, with a failing request in between. -/
theorem committed_runs_scenario :
    (runCommitted exLimits exCtx0
        [exMsgBadKey "seq1" "R1", exMsg "seq1" "R1", exMsg "seq2" "R1"]).sequencersByRollapp
        "R1" =
      some { RollappId := "R1", Sequencers := { Addresses := ["seq1", "seq2"] } } ∧
    (runCommitted exLimits exCtx0
        [exMsgBadKey "seq1" "R1", exMsg "seq1" "R1", exMsg "seq2" "R1"]).schedulers "seq1" =
      some { SequencerAddress := "seq1", Status := OperatingStatus.Proposer } := by
  refine ⟨by decide, by decide⟩

/-- A delivered call leaves the context it found, or it succeeded and leaves the
context of the handler. -/
theorem deliver_cases (lim : DescriptionLimits) (ctx : Ctx) (msg : MsgCreateSequencer) :
    deliver lim ctx msg = ctx ∨
    ∃ r, (CreateSequencer lim ctx msg).2 = .ok r ∧
      deliver lim ctx msg = (CreateSequencer lim ctx msg).1 := by
  unfold deliver
  cases hr : (CreateSequencer lim ctx msg).2 with
  | error e => exact Or.inl rfl
  | panic t => exact Or.inl rfl
  | ok r => exact Or.inr ⟨r, rfl, rfl⟩

/-- No call stores a sequencer record under another address than the record's own. -/
theorem SequencersKeyed_step (lim : DescriptionLimits) (ctx : Ctx) (msg : MsgCreateSequencer)
    (h : SequencersKeyed ctx) : SequencersKeyed (CreateSequencer lim ctx msg).1 := by
  intro a s hs
  rcases CreateSequencer_ctx_shape lim ctx msg with hc | ⟨ctx1, sbr, hu, hc⟩
  · rw [hc] at hs; exact h a s hs
  · have h1 := (updateSequencersList_ctx ctx _ msg ctx1 sbr hu).2.1
    rcases hc with hc | ⟨sequencer, hseq, hc⟩
    · rw [hc] at hs
      simp only [SetSequencersByRollapp, h1] at hs
      exact h a s hs
    · rw [hc] at hs
      simp only [SetSequencer, SetSequencersByRollapp, h1] at hs
      by_cases ha : a = sequencer.SequencerAddress
      · rw [if_pos ha] at hs
        cases hs
        exact ha.symm
      · rw [if_neg ha] at hs
        exact h a s hs

theorem SequencersKeyed_runCommitted (lim : DescriptionLimits) (msgs : List MsgCreateSequencer)
    (ctx : Ctx) (h : SequencersKeyed ctx) : SequencersKeyed (runCommitted lim ctx msgs) := by
  induction msgs generalizing ctx with
  | nil => exact h
  | cons m rest ih =>
    unfold runCommitted
    apply ih
    rcases deliver_cases lim ctx m with hd | ⟨_, _, hd⟩
    · rw [hd]; exact h
    · rw [hd]; exact SequencersKeyed_step lim ctx m h

/-! ## The claims -/

/-- C2: a call that returns ErrSequencerExists, ErrUnknownRollappId,
ErrSequencerNotPermissioned, ErrMaxSequencersLimit or a wrapped ErrLogic leaves the
sequencer store, the roster store and the scheduler store as it found them. -/
theorem early_errors_leave_stores_unchanged (lim : DescriptionLimits) (ctx : Ctx)
    (msg : MsgCreateSequencer) (e : Error)
    (h : (CreateSequencer lim ctx msg).2 = .error e)
    (he : e = Error.ErrSequencerExists ∨ e = Error.ErrUnknownRollappId ∨
      e = Error.ErrSequencerNotPermissioned ∨ e = Error.ErrMaxSequencersLimit ∨
      ∃ t, e = Error.Wrapf Error.ErrLogic t) :
    (CreateSequencer lim ctx msg).1.sequencers = ctx.sequencers ∧
    (CreateSequencer lim ctx msg).1.sequencersByRollapp = ctx.sequencersByRollapp ∧
    (CreateSequencer lim ctx msg).1.schedulers = ctx.schedulers := by
  rcases CreateSequencer_cases lim ctx msg with hc | hc | hc | ⟨_, _, hc⟩
  · rw [hc]; exact ⟨rfl, rfl, rfl⟩
  · rw [hc]; exact ⟨rfl, rfl, rfl⟩
  · rw [hc]; exact ⟨rfl, rfl, rfl⟩
  · rw [hc] at h ⊢
    cases hu : updateSequencersList ctx (GetRollapp ctx msg.RollappId).1 msg with
    | error err => exact ⟨rfl, rfl, rfl⟩
    | ok p =>
      obtain ⟨ctx1, sbr⟩ := p
      rw [hu] at h
      simp only at h
      obtain ⟨t, ht⟩ := storeSequencer_error lim ctx1 sbr msg e h
      rcases ht with ht | ht | ht <;> subst ht <;> simp at he

/-- Witness for C2 (Scenario A, third registration, and Scenario C): with the roster of `R1`
at its capacity of two the request of `seq3` fails with ErrMaxSequencersLimit, a
request under the unknown rollapp `R9` fails with ErrUnknownRollappId, and both
leave the three stores unchanged. -/
theorem early_errors_leave_stores_unchanged_witness :
    ((CreateSequencer exLimits exCtxFull (exMsg "seq3" "R1")).2 =
        .error Error.ErrMaxSequencersLimit ∧
      (CreateSequencer exLimits exCtxFull (exMsg "seq3" "R1")).1.sequencers =
        exCtxFull.sequencers ∧
      (CreateSequencer exLimits exCtxFull (exMsg "seq3" "R1")).1.sequencersByRollapp =
        exCtxFull.sequencersByRollapp ∧
      (CreateSequencer exLimits exCtxFull (exMsg "seq3" "R1")).1.schedulers =
        exCtxFull.schedulers) ∧
    ((CreateSequencer exLimits exCtx0 (exMsg "seq1" "R9")).2 =
        .error Error.ErrUnknownRollappId ∧
      (CreateSequencer exLimits exCtx0 (exMsg "seq1" "R9")).1.sequencers = exCtx0.sequencers ∧
      (CreateSequencer exLimits exCtx0 (exMsg "seq1" "R9")).1.sequencersByRollapp =
        exCtx0.sequencersByRollapp ∧
      (CreateSequencer exLimits exCtx0 (exMsg "seq1" "R9")).1.schedulers = exCtx0.schedulers) :=
  ⟨⟨by decide,
    early_errors_leave_stores_unchanged exLimits exCtxFull (exMsg "seq3" "R1")
      Error.ErrMaxSequencersLimit (by decide) (Or.inr (Or.inr (Or.inr (Or.inl rfl))))⟩,
   ⟨by decide,
    early_errors_leave_stores_unchanged exLimits exCtx0 (exMsg "seq1" "R9")
      Error.ErrUnknownRollappId (by decide) (Or.inr (Or.inl rfl))⟩⟩

/-- C3: once a call for address A has succeeded, every later call for A fails with
ErrSequencerExists, whatever its other fields and whatever calls were handled in
between. -/
theorem registered_address_is_rejected (lim : DescriptionLimits) (ctx : Ctx)
    (first : MsgCreateSequencer) (between : List MsgCreateSequencer)
    (later : MsgCreateSequencer) (r : MsgCreateSequencerResponse)
    (hok : (CreateSequencer lim ctx first).2 = .ok r)
    (hA : later.SequencerAddress = first.SequencerAddress) :
    (CreateSequencer lim (runMsgs lim (CreateSequencer lim ctx first).1 between) later).2 =
      .error Error.ErrSequencerExists := by
  rw [CreateSequencer_registered]
  rw [hA]
  exact runMsgs_keeps_sequencer lim between _ _ (CreateSequencer_ok_registers lim ctx first r hok)


/-- Witness for C3 (Scenario D): `seq1` registers under `R1`, `seq2` registers in between, and a
later request for `seq1` with another key and the unknown rollapp `R9` fails with
ErrSequencerExists. -/
theorem registered_address_is_rejected_witness :
    (CreateSequencer exLimits exCtx0 (exMsg "seq1" "R1")).2 = .ok {} ∧
    (CreateSequencer exLimits
        (runMsgs exLimits (CreateSequencer exLimits exCtx0 (exMsg "seq1" "R1")).1
          [exMsg "seq2" "R1"])
        (exMsgBadKey "seq1" "R9")).2 = .error Error.ErrSequencerExists :=
  ⟨by decide,
   registered_address_is_rejected exLimits exCtx0 (exMsg "seq1" "R1") [exMsg "seq2" "R1"]
     (exMsgBadKey "seq1" "R9") {} (by decide) (by decide)⟩

/-- C4: after a successful call for address A under rollapp R the scheduler store holds
for A a record with address A, of status Proposer when R had no roster before the
call and of status Inactive when it had one. -/
theorem first_is_proposer_later_inactive (lim : DescriptionLimits) (ctx : Ctx)
    (msg : MsgCreateSequencer) (r : MsgCreateSequencerResponse)
    (hok : (CreateSequencer lim ctx msg).2 = .ok r) :
    ((GetSequencersByRollapp ctx msg.RollappId).2 = false →
      (CreateSequencer lim ctx msg).1.schedulers msg.SequencerAddress =
        some { SequencerAddress := msg.SequencerAddress, Status := OperatingStatus.Proposer }) ∧
    ((GetSequencersByRollapp ctx msg.RollappId).2 = true →
      (CreateSequencer lim ctx msg).1.schedulers msg.SequencerAddress =
        some { SequencerAddress := msg.SequencerAddress, Status := OperatingStatus.Inactive }) := by
  obtain ⟨pk, d, ctx1, sbr, _, _, _, _, hu, hc⟩ := CreateSequencer_ok_ctx lim ctx msg r hok
  rw [hc]
  rcases updateSequencersList_ok ctx _ msg ctx1 sbr hu with ⟨hf, _, h1, _⟩ | ⟨hf, h1, _⟩
  · subst h1
    constructor
    · intro hn; rw [hf] at hn; simp at hn
    · intro _; simp [SetSequencer, SetSequencersByRollapp, SetScheduler]
  · subst h1
    constructor
    · intro _; simp [SetSequencer, SetSequencersByRollapp, SetScheduler]
    · intro hn; rw [hf] at hn; simp at hn

/-- Witness for C4 (Scenario A): `seq1`, first under `R1`, becomes Proposer; `seq2`, registered
when the roster exists, becomes Inactive. -/
theorem first_is_proposer_later_inactive_witness :
    ((GetSequencersByRollapp exCtx0 "R1").2 = false ∧
      (CreateSequencer exLimits exCtx0 (exMsg "seq1" "R1")).1.schedulers "seq1" =
        some { SequencerAddress := "seq1", Status := OperatingStatus.Proposer }) ∧
    ((GetSequencersByRollapp (CreateSequencer exLimits exCtx0 (exMsg "seq1" "R1")).1 "R1").2 =
        true ∧
      (CreateSequencer exLimits (CreateSequencer exLimits exCtx0 (exMsg "seq1" "R1")).1
          (exMsg "seq2" "R1")).1.schedulers "seq2" =
        some { SequencerAddress := "seq2", Status := OperatingStatus.Inactive }) :=
  ⟨⟨by decide,
    (first_is_proposer_later_inactive exLimits exCtx0 (exMsg "seq1" "R1") {} (by decide)).1
      (by decide)⟩,
   ⟨by decide,
    (first_is_proposer_later_inactive exLimits
      (CreateSequencer exLimits exCtx0 (exMsg "seq1" "R1")).1 (exMsg "seq2" "R1") {}
      (by decide)).2 (by decide)⟩⟩

/-- C5: evaluation of the handler at a rollapp of capacity zero.  Rollapp `R0` has
`MaxSequencers = 0`; from empty stores the first request under it takes the branch of
lines 70 to 79, which has no capacity check, and succeeds: one registration is
counted and the roster of `R0` holds one address, more than its capacity.  The
next request under `R0` then meets the over-capacity error of line 57. -/
theorem capacity_zero_admits_first_sequencer :
    exRollapps "R0" =
      some { RollappId := "R0", MaxSequencers := 0, PermissionedAddresses := { Addresses := [] } } ∧
    (CreateSequencer exLimits (emptyStores exRollapps) (exMsg "seq1" "R0")).2 = .ok {} ∧
    countRegistered exLimits (emptyStores exRollapps) [exMsg "seq1" "R0"] "R0" = 1 ∧
    (runMsgs exLimits (emptyStores exRollapps) [exMsg "seq1" "R0"]).sequencersByRollapp "R0" =
      some { RollappId := "R0", Sequencers := { Addresses := ["seq1"] } } ∧
    ¬ (∀ sbr,
        (runMsgs exLimits (emptyStores exRollapps) [exMsg "seq1" "R0"]).sequencersByRollapp "R0" =
          some sbr → sbr.Sequencers.Addresses.length ≤ 0) ∧
    (CreateSequencer exLimits (runMsgs exLimits (emptyStores exRollapps) [exMsg "seq1" "R0"])
        (exMsg "seq2" "R0")).2 =
      .error (Error.Wrapf Error.ErrLogic
        "rollapp id: R0 cannot have more than 0 sequencers but got: 1") := by
  refine ⟨by decide, by decide, by decide, by decide, ?_, by decide⟩
  intro h
  have := h { RollappId := "R0", Sequencers := { Addresses := ["seq1"] } } (by decide)
  simp at this

/-- C6: evaluation of the handler at a rollapp whose maximum does not fit an `int`.  Rollapp
`RBig` has `MaxSequencers = 2 ^ 63`, which line 53 converts to `-2 ^ 63`; with a roster
of one address, fewer than the maximum, the request of an unregistered address
under open admission fails with the over-capacity error of line 57, and the
stores are left as they were. -/
theorem capacity_check_wraps_large_max :
    exRollapps "RBig" =
      some { RollappId := "RBig", MaxSequencers := 2 ^ 63,
             PermissionedAddresses := { Addresses := [] } } ∧
    (runMsgs exLimits exCtx0 [exMsg "seq1" "RBig"]).sequencersByRollapp "RBig" =
      some { RollappId := "RBig", Sequencers := { Addresses := ["seq1"] } } ∧
    (GetSequencer (runMsgs exLimits exCtx0 [exMsg "seq1" "RBig"]) "seq2").2 = false ∧
    1 < 2 ^ 63 ∧
    uint64ToInt (2 ^ 63) = -(2 ^ 63) ∧
    (CreateSequencer exLimits (runMsgs exLimits exCtx0 [exMsg "seq1" "RBig"])
        (exMsg "seq2" "RBig")).2 =
      .error (Error.Wrapf Error.ErrLogic
        "rollapp id: RBig cannot have more than -9223372036854775808 sequencers but got: 1") := by
  refine ⟨by decide, by decide, by decide, by decide, by decide, by decide⟩

/-- C7, as stated, fails for an address that is already registered: `seqB` is registered
under `R1`; rollapp `R2` admits only `seqA`; the request of `seqB` under `R2` fails
with ErrSequencerExists, the error of the first check, not with
ErrSequencerNotPermissioned. -/
theorem registered_address_meets_uniqueness_first :
    exRollapps "R2" =
      some { RollappId := "R2", MaxSequencers := 5,
             PermissionedAddresses := { Addresses := ["seqA"] } } ∧
    "seqB" ∉ ["seqA"] ∧
    (GetSequencer (runMsgs exLimits exCtx0 [exMsg "seqB" "R1"]) "seqB").2 = true ∧
    (CreateSequencer exLimits (runMsgs exLimits exCtx0 [exMsg "seqB" "R1"])
        (exMsg "seqB" "R2")).2 = .error Error.ErrSequencerExists ∧
    (CreateSequencer exLimits (runMsgs exLimits exCtx0 [exMsg "seqB" "R1"])
        (exMsg "seqB" "R2")).2 ≠ .error Error.ErrSequencerNotPermissioned := by
  refine ⟨by decide, by decide, by decide, by decide, by decide⟩

/-- C7, amended: for every store state, every rollapp R of the directory whose permissioned
list is not empty and every address A not in that list, a request for A under R
fails with ErrSequencerNotPermissioned when A is not yet registered, whatever
roster R has, and fails with ErrSequencerExists when A is already registered; in
both cases the context is left as it was. -/
theorem permission_gate (lim : DescriptionLimits) (ctx : Ctx) (msg : MsgCreateSequencer)
    (rollapp : Rollapp)
    (hdir : ctx.rollapps msg.RollappId = some rollapp)
    (hne : rollapp.PermissionedAddresses.Addresses ≠ [])
    (hnot : msg.SequencerAddress ∉ rollapp.PermissionedAddresses.Addresses) :
    ((GetSequencer ctx msg.SequencerAddress).2 = false →
      CreateSequencer lim ctx msg = (ctx, .error Error.ErrSequencerNotPermissioned)) ∧
    ((GetSequencer ctx msg.SequencerAddress).2 = true →
      CreateSequencer lim ctx msg = (ctx, .error Error.ErrSequencerExists)) := by
  have hg := GetRollapp_some _ _ _ hdir
  have hp := (permission_condition _ _).2 ⟨hne, hnot⟩
  constructor
  · intro hreg
    exact CreateSequencer_notPermissioned lim ctx msg hreg (by rw [hg]) (by rw [hg]; exact hp.1)
      (by rw [hg]; exact hp.2)
  · intro hreg
    exact CreateSequencer_registered lim ctx msg hreg

/-- Witness for C7 (Scenario B): rollapp `R2` admits only `seqA`; the request of the
unregistered `seqB` under `R2` fails with ErrSequencerNotPermissioned from empty
stores. -/
theorem permission_gate_witness :
    (GetSequencer exCtx0 "seqB").2 = false ∧
    CreateSequencer exLimits exCtx0 (exMsg "seqB" "R2") =
      (exCtx0, .error Error.ErrSequencerNotPermissioned) :=
  ⟨by decide,
   (permission_gate exLimits exCtx0 (exMsg "seqB" "R2")
      { RollappId := "R2", MaxSequencers := 5,
        PermissionedAddresses := { Addresses := ["seqA"] } }
      (by decide) (by decide) (by decide)).1 (by decide)⟩

/-- C8: for an unregistered address and a rollapp of the directory, the call returns
ErrSequencerNotPermissioned exactly when the rollapp's permissioned list is not
empty and does not contain the address; the scan of lines 33 to 39 finds the
address exactly when it is in the list; and with an empty list the call never
returns ErrSequencerNotPermissioned. -/
theorem not_permissioned_iff (lim : DescriptionLimits) (ctx : Ctx) (msg : MsgCreateSequencer)
    (rollapp : Rollapp)
    (hreg : (GetSequencer ctx msg.SequencerAddress).2 = false)
    (hdir : ctx.rollapps msg.RollappId = some rollapp) :
    ((CreateSequencer lim ctx msg).2 = .error Error.ErrSequencerNotPermissioned ↔
      (rollapp.PermissionedAddresses.Addresses ≠ [] ∧
        msg.SequencerAddress ∉ rollapp.PermissionedAddresses.Addresses)) ∧
    (scanPermissioned rollapp.PermissionedAddresses.Addresses msg.SequencerAddress = true ↔
      msg.SequencerAddress ∈ rollapp.PermissionedAddresses.Addresses) ∧
    (rollapp.PermissionedAddresses.Addresses = [] →
      (CreateSequencer lim ctx msg).2 ≠ .error Error.ErrSequencerNotPermissioned) := by
  have hg := GetRollapp_some _ _ _ hdir
  have hiff : (CreateSequencer lim ctx msg).2 = .error Error.ErrSequencerNotPermissioned ↔
      (rollapp.PermissionedAddresses.Addresses ≠ [] ∧
        msg.SequencerAddress ∉ rollapp.PermissionedAddresses.Addresses) := by
    constructor
    · intro he
      by_contra hcon
      have hadm := CreateSequencer_admitted lim ctx msg hreg (by rw [hg]) (by
        rw [hg]
        simp only
        intro hp
        exact hcon ((permission_condition _ _).1 hp))
      rcases admitted_error lim ctx msg _ hadm he with h | ⟨b, t, h⟩ <;> simp at h
    · intro hp
      have hp2 := (permission_condition _ _).2 hp
      rw [CreateSequencer_notPermissioned lim ctx msg hreg (by rw [hg]) (by rw [hg]; exact hp2.1)
        (by rw [hg]; exact hp2.2)]
  refine ⟨hiff, scanPermissioned_iff _ _, ?_⟩
  intro hempty he
  exact (hiff.1 he).1 hempty

/-- Witness for C8 (Scenario B): under `R2`, which admits only `seqA`, the unregistered `seqB` is
rejected with ErrSequencerNotPermissioned and `seqA` is not. -/
theorem not_permissioned_iff_witness :
    ((CreateSequencer exLimits exCtx0 (exMsg "seqB" "R2")).2 =
        .error Error.ErrSequencerNotPermissioned ↔
      (["seqA"] ≠ [] ∧ "seqB" ∉ ["seqA"])) ∧
    (CreateSequencer exLimits exCtx0 (exMsg "seqA" "R2")).2 = .ok {} :=
  ⟨(not_permissioned_iff exLimits exCtx0 (exMsg "seqB" "R2")
      { RollappId := "R2", MaxSequencers := 5,
        PermissionedAddresses := { Addresses := ["seqA"] } }
      (by decide) (by decide)).1,
   by decide⟩

/-- C9, as stated, fails for a request without a public-key envelope: from empty stores the
request of `seq1` under `R1` with a nil `Pubkey` passes the first four checks, and
line 82 then panics on the nil receiver: the call neither returns the error of a
check nor succeeds. -/
theorem missing_envelope_panics :
    (exMsgNoKey "seq1" "R1").Pubkey = none ∧
    uniquenessCheck exCtx0 (exMsgNoKey "seq1" "R1") = none ∧
    rollappExistenceCheck exCtx0 (exMsgNoKey "seq1" "R1") = none ∧
    permissionCheck exCtx0 (exMsgNoKey "seq1" "R1") = none ∧
    capacityCheck exCtx0 (exMsgNoKey "seq1" "R1") = none ∧
    (CreateSequencer exLimits exCtx0 (exMsgNoKey "seq1" "R1")).2 = .panic nilDereference ∧
    (∀ e, (CreateSequencer exLimits exCtx0 (exMsgNoKey "seq1" "R1")).2 ≠ .error e) ∧
    (CreateSequencer exLimits exCtx0 (exMsgNoKey "seq1" "R1")).2 ≠ .ok {} := by
  have h : (CreateSequencer exLimits exCtx0 (exMsgNoKey "seq1" "R1")).2 =
      .panic nilDereference := by decide
  refine ⟨by decide, by decide, by decide, by decide, by decide, h, ?_, ?_⟩
  · intro e he; rw [h] at he; cases he
  · intro he; rw [h] at he; cases he

/-- C9, amended: the checks are applied in the order uniqueness, rollapp existence, permission,
capacity, public-key type, description length.  For every request: a registered
address gives ErrSequencerExists whatever the rollapp; an unregistered address
under an unknown rollapp gives ErrUnknownRollappId; a failed permission check
gives ErrSequencerNotPermissioned whatever the roster; a failed capacity check
gives its error whatever the envelope and the description.  For every request
whose `Pubkey` envelope is present, holding `value`: the result is the error of
the first of the six checks that fails; a failed key check gives its error
whatever the description; and the call succeeds exactly when none of the six
checks fails. -/
theorem checks_in_strict_order (lim : DescriptionLimits) (ctx : Ctx) (msg : MsgCreateSequencer) :
    (∀ value, GetCachedValue msg.Pubkey = some value →
      (CreateSequencer lim ctx msg).2 =
        match firstFailure lim ctx msg value with
        | some e => .error e
        | none => .ok {}) ∧
    ((GetSequencer ctx msg.SequencerAddress).2 = true →
      (CreateSequencer lim ctx msg).2 = .error Error.ErrSequencerExists) ∧
    ((GetSequencer ctx msg.SequencerAddress).2 = false →
      (GetRollapp ctx msg.RollappId).2 = false →
      (CreateSequencer lim ctx msg).2 = .error Error.ErrUnknownRollappId) ∧
    ((GetSequencer ctx msg.SequencerAddress).2 = false →
      (GetRollapp ctx msg.RollappId).2 = true →
      (GetRollapp ctx msg.RollappId).1.PermissionedAddresses.Addresses ≠ [] →
      msg.SequencerAddress ∉ (GetRollapp ctx msg.RollappId).1.PermissionedAddresses.Addresses →
      (CreateSequencer lim ctx msg).2 = .error Error.ErrSequencerNotPermissioned) ∧
    (uniquenessCheck ctx msg = none → rollappExistenceCheck ctx msg = none →
      permissionCheck ctx msg = none →
      ∀ e, capacityCheck ctx msg = some e → (CreateSequencer lim ctx msg).2 = .error e) ∧
    (∀ value, GetCachedValue msg.Pubkey = some value →
      uniquenessCheck ctx msg = none → rollappExistenceCheck ctx msg = none →
      permissionCheck ctx msg = none → capacityCheck ctx msg = none →
      ∀ e, publicKeyCheck value = some e → (CreateSequencer lim ctx msg).2 = .error e) ∧
    (∀ value, GetCachedValue msg.Pubkey = some value →
      uniquenessCheck ctx msg = none → rollappExistenceCheck ctx msg = none →
      permissionCheck ctx msg = none → capacityCheck ctx msg = none →
      publicKeyCheck value = none →
      ∀ e, descriptionCheck lim msg = some e → (CreateSequencer lim ctx msg).2 = .error e) ∧
    (∀ value, GetCachedValue msg.Pubkey = some value →
      ((CreateSequencer lim ctx msg).2 = .ok {} ↔
        ∀ c ∈ checksInOrder lim ctx msg value, c = none)) := by
  refine ⟨CreateSequencer_firstFailure lim ctx msg, ?_, ?_, ?_, ?_, ?_, ?_, ?_⟩
  · intro h1
    rw [CreateSequencer_registered lim ctx msg h1]
  · intro h1 h2
    rw [CreateSequencer_unknownRollapp lim ctx msg h1 h2]
  · intro h1 h2 h3 h4
    have hp := (permission_condition _ _).2 ⟨h3, h4⟩
    rw [CreateSequencer_notPermissioned lim ctx msg h1 h2 hp.1 hp.2]
  · intro h1 h2 h3 e h4
    rw [capacity_error_returned lim ctx msg h1 h2 h3 e h4]
  · intro value hv h1 h2 h3 h4 e h5
    rw [CreateSequencer_firstFailure lim ctx msg value hv]
    simp [firstFailure, checksInOrder, h1, h2, h3, h4, h5]
  · intro value hv h1 h2 h3 h4 h5 e h6
    rw [CreateSequencer_firstFailure lim ctx msg value hv]
    simp [firstFailure, checksInOrder, h1, h2, h3, h4, h5, h6]
  · intro value hv
    rw [CreateSequencer_firstFailure lim ctx msg value hv]
    simp only [firstFailure, checksInOrder]
    cases uniquenessCheck ctx msg <;> cases rollappExistenceCheck ctx msg <;>
      cases permissionCheck ctx msg <;> cases capacityCheck ctx msg <;>
      cases publicKeyCheck value <;> cases descriptionCheck lim msg <;> simp

/-- Witness for C9: the registered `seq1` under the unknown rollapp `R9` gives ErrSequencerExists;
`seqB`, not admitted by `R3`, gives ErrSequencerNotPermissioned although the
roster of `R3` is full; with the roster of `R1` full a request with a bad key
gives ErrMaxSequencersLimit; and from empty stores a request with a bad key and
a description that is too long gives the error of the key check. -/
theorem checks_in_strict_order_witness :
    ((GetRollapp exCtxFull "R9").2 = false ∧
      (CreateSequencer exLimits exCtxFull (exMsg "seq1" "R9")).2 =
        .error Error.ErrSequencerExists) ∧
    (rosterLength (runMsgs exLimits exCtx0 [exMsg "seqA" "R3"]) "R3" = 1 ∧
      (CreateSequencer exLimits (runMsgs exLimits exCtx0 [exMsg "seqA" "R3"])
        (exMsg "seqB" "R3")).2 = .error Error.ErrSequencerNotPermissioned) ∧
    (publicKeyCheck (CachedValue.other "*types.MsgSend") ≠ none ∧
      (CreateSequencer exLimits exCtxFull (exMsgBadKey "seq3" "R1")).2 =
        .error Error.ErrMaxSequencersLimit) ∧
    (descriptionCheck exLimits
        { exMsgBadKey "seq1" "R1" with Description := exLongDescription } ≠ none ∧
      (CreateSequencer exLimits exCtx0
        { exMsgBadKey "seq1" "R1" with Description := exLongDescription }).2 =
        .error (Error.Wrapf Error.ErrInvalidType "Expecting cryptotypes.PubKey, got <nil>")) :=
  ⟨⟨by decide,
    (checks_in_strict_order exLimits exCtxFull (exMsg "seq1" "R9")).2.1 (by decide)⟩,
   ⟨by decide,
    (checks_in_strict_order exLimits (runMsgs exLimits exCtx0 [exMsg "seqA" "R3"])
      (exMsg "seqB" "R3")).2.2.2.1 (by decide) (by decide) (by decide) (by decide)⟩,
   ⟨by decide,
    (checks_in_strict_order exLimits exCtxFull (exMsgBadKey "seq3" "R1")).2.2.2.2.1
      (by decide) (by decide) (by decide) Error.ErrMaxSequencersLimit (by decide)⟩,
   ⟨by decide,
    (checks_in_strict_order exLimits exCtx0
      { exMsgBadKey "seq1" "R1" with Description := exLongDescription }).2.2.2.2.2.1
      (CachedValue.other "*types.MsgSend") (by decide) (by decide) (by decide) (by decide)
      (by decide) _ (by decide)⟩⟩

/-- C10: after a successful call the sequencer store holds, under the request's address, a
record with the request's creator, address, description and rollapp id, whose
`Pubkey` is the envelope `NewAnyWithValue` makes of the public key held in the
request's envelope; and the result is the empty response with no error. -/
theorem success_stores_sequencer (lim : DescriptionLimits) (ctx : Ctx) (msg : MsgCreateSequencer)
    (r : MsgCreateSequencerResponse) (hok : (CreateSequencer lim ctx msg).2 = .ok r) :
    ∃ pk pkAny,
      GetCachedValue msg.Pubkey = some (CachedValue.pubKey pk) ∧
      NewAnyWithValue (some pk) = .ok pkAny ∧
      pkAny.cachedValue = CachedValue.pubKey pk ∧
      (CreateSequencer lim ctx msg).1.sequencers msg.SequencerAddress =
        some { Creator := msg.Creator, SequencerAddress := msg.SequencerAddress,
               Pubkey := some pkAny, Description := msg.Description,
               RollappId := msg.RollappId } ∧
      (CreateSequencer lim ctx msg).2 = .ok {} := by
  obtain ⟨pk, d, ctx1, sbr, _, _, hc, _, _, hctx⟩ := CreateSequencer_ok_ctx lim ctx msg r hok
  refine ⟨pk, _, hc, rfl, rfl, ?_, hok⟩
  rw [hctx]
  simp [SetSequencer]

/-- Witness for C10 (Scenario A): the successful request of `seq1` under `R1` stores the record of `seq1`. -/
theorem success_stores_sequencer_witness :
    (CreateSequencer exLimits exCtx0 (exMsg "seq1" "R1")).2 = .ok {} ∧
    ∃ pk pkAny,
      GetCachedValue (exMsg "seq1" "R1").Pubkey = some (CachedValue.pubKey pk) ∧
      NewAnyWithValue (some pk) = .ok pkAny ∧
      pkAny.cachedValue = CachedValue.pubKey pk ∧
      (CreateSequencer exLimits exCtx0 (exMsg "seq1" "R1")).1.sequencers
          (exMsg "seq1" "R1").SequencerAddress =
        some { Creator := (exMsg "seq1" "R1").Creator,
               SequencerAddress := (exMsg "seq1" "R1").SequencerAddress,
               Pubkey := some pkAny, Description := (exMsg "seq1" "R1").Description,
               RollappId := (exMsg "seq1" "R1").RollappId } ∧
      (CreateSequencer exLimits exCtx0 (exMsg "seq1" "R1")).2 = .ok {} :=
  ⟨by decide, success_stores_sequencer exLimits exCtx0 (exMsg "seq1" "R1") {} (by decide)⟩

/-- C11: after a successful call for address A under rollapp R, when R had no roster the roster
store holds for R the roster with rollapp id R and the one address A; when R had
a roster with addresses L, the roster written is that roster with addresses
`L ++ [A]`, stored under the old roster's rollapp id, which is R for a roster
stored under its own id: L is a prefix of the new addresses, A is the last of
them, and there is exactly one address more. -/
theorem success_extends_roster (lim : DescriptionLimits) (ctx : Ctx) (msg : MsgCreateSequencer)
    (r : MsgCreateSequencerResponse) (hok : (CreateSequencer lim ctx msg).2 = .ok r) :
    (ctx.sequencersByRollapp msg.RollappId = none →
      (CreateSequencer lim ctx msg).1.sequencersByRollapp msg.RollappId =
        some { RollappId := msg.RollappId,
               Sequencers := { Addresses := [msg.SequencerAddress] } }) ∧
    (∀ old, ctx.sequencersByRollapp msg.RollappId = some old →
      (CreateSequencer lim ctx msg).1.sequencersByRollapp old.RollappId =
        some { RollappId := old.RollappId,
               Sequencers := { Addresses :=
                 old.Sequencers.Addresses ++ [msg.SequencerAddress] } } ∧
      (old.RollappId = msg.RollappId →
        (CreateSequencer lim ctx msg).1.sequencersByRollapp msg.RollappId =
          some { RollappId := msg.RollappId,
                 Sequencers := { Addresses :=
                   old.Sequencers.Addresses ++ [msg.SequencerAddress] } }) ∧
      old.Sequencers.Addresses <+: old.Sequencers.Addresses ++ [msg.SequencerAddress] ∧
      (old.Sequencers.Addresses ++ [msg.SequencerAddress]).getLast? =
        some msg.SequencerAddress ∧
      (old.Sequencers.Addresses ++ [msg.SequencerAddress]).length =
        old.Sequencers.Addresses.length + 1) := by
  obtain ⟨pk, d, ctx1, sbr, _, _, _, _, hu, hc⟩ := CreateSequencer_ok_ctx lim ctx msg r hok
  rw [hc]
  rcases updateSequencersList_ok ctx _ msg ctx1 sbr hu with ⟨hf, _, h1, h2⟩ | ⟨hf, h1, h2⟩
  · constructor
    · intro hn
      rw [GetSequencersByRollapp_none ctx _ hn] at hf
      simp at hf
    · intro old ho
      rw [GetSequencersByRollapp_some ctx _ old ho] at h2
      simp only at h2
      subst h1 h2
      refine ⟨by simp [SetSequencer, SetSequencersByRollapp], ?_, by simp, by simp, by simp⟩
      intro hkey
      simp [SetSequencer, SetSequencersByRollapp, hkey]
  · constructor
    · intro _
      subst h1 h2
      simp [SetSequencer, SetSequencersByRollapp]
    · intro old ho
      rw [GetSequencersByRollapp_some ctx _ old ho] at hf
      simp at hf

/-- Witness for C11 (Scenario A): `seq1` under `R1`, which has no roster, gives the roster `[seq1]`;
`seq2` then gives the roster `[seq1, seq2]`. -/
theorem success_extends_roster_witness :
    (exCtx0.sequencersByRollapp "R1" = none ∧
      (CreateSequencer exLimits exCtx0 (exMsg "seq1" "R1")).1.sequencersByRollapp "R1" =
        some { RollappId := "R1", Sequencers := { Addresses := ["seq1"] } }) ∧
    ((CreateSequencer exLimits exCtx0 (exMsg "seq1" "R1")).1.sequencersByRollapp "R1" =
        some { RollappId := "R1", Sequencers := { Addresses := ["seq1"] } } ∧
      (CreateSequencer exLimits (CreateSequencer exLimits exCtx0 (exMsg "seq1" "R1")).1
          (exMsg "seq2" "R1")).1.sequencersByRollapp "R1" =
        some { RollappId := "R1", Sequencers := { Addresses := ["seq1"] ++ ["seq2"] } }) :=
  ⟨⟨by decide,
    (success_extends_roster exLimits exCtx0 (exMsg "seq1" "R1") {} (by decide)).1 (by decide)⟩,
   ⟨by decide,
    ((success_extends_roster exLimits (CreateSequencer exLimits exCtx0 (exMsg "seq1" "R1")).1
      (exMsg "seq2" "R1") {} (by decide)).2
      { RollappId := "R1", Sequencers := { Addresses := ["seq1"] } } (by decide)).2.1
      (by decide)⟩⟩

/-- C13: in every state reached from empty stores by delivering calls, successful or failing,
every rollapp that has a roster has a first roster address, the scheduler status
of that address is Proposer, and every other address of the roster has status
Inactive: exactly one address of the roster is Proposer, the first. -/
theorem exactly_one_proposer (lim : DescriptionLimits) (rollapps : String → Option Rollapp)
    (msgs : List MsgCreateSequencer) (r : String) (sbr : SequencersByRollapp)
    (hs : (runCommitted lim (emptyStores rollapps) msgs).sequencersByRollapp r = some sbr) :
    ∃ first, sbr.Sequencers.Addresses.head? = some first ∧
      first ∈ sbr.Sequencers.Addresses ∧
      (runCommitted lim (emptyStores rollapps) msgs).schedulers first =
        some { SequencerAddress := first, Status := OperatingStatus.Proposer } ∧
      (∀ a, a ∈ sbr.Sequencers.Addresses → a ≠ first →
        (runCommitted lim (emptyStores rollapps) msgs).schedulers a =
          some { SequencerAddress := a, Status := OperatingStatus.Inactive }) ∧
      (∀ a s, a ∈ sbr.Sequencers.Addresses →
        (runCommitted lim (emptyStores rollapps) msgs).schedulers a = some s →
        (s.Status = OperatingStatus.Proposer ↔ a = first)) := by
  obtain ⟨first, hfirst, hp, hrest⟩ := committed_runs_one_proposer lim rollapps msgs r sbr hs
  refine ⟨first, hfirst, List.mem_of_mem_head? hfirst, hp, hrest, ?_⟩
  intro a s ha hsa
  constructor
  · intro hpa
    by_contra hne
    rw [hrest a ha hne] at hsa
    cases hsa
    cases hpa
  · intro hfa
    rw [hfa, hp] at hsa
    cases hsa
    rfl

/-- Witness for C13: after the delivered run of a failing and two successful requests under `R1`,
the roster of `R1` is `[seq1, seq2]`, with `seq1` Proposer and `seq2` Inactive. -/
theorem exactly_one_proposer_witness :
    (runCommitted exLimits (emptyStores exRollapps)
        [exMsgBadKey "seq1" "R1", exMsg "seq1" "R1", exMsg "seq2" "R1"]).sequencersByRollapp
        "R1" =
      some { RollappId := "R1", Sequencers := { Addresses := ["seq1", "seq2"] } } ∧
    ∃ first, ["seq1", "seq2"].head? = some first ∧
      first ∈ ["seq1", "seq2"] ∧
      (runCommitted exLimits (emptyStores exRollapps)
          [exMsgBadKey "seq1" "R1", exMsg "seq1" "R1", exMsg "seq2" "R1"]).schedulers first =
        some { SequencerAddress := first, Status := OperatingStatus.Proposer } ∧
      (∀ a, a ∈ ["seq1", "seq2"] → a ≠ first →
        (runCommitted exLimits (emptyStores exRollapps)
            [exMsgBadKey "seq1" "R1", exMsg "seq1" "R1", exMsg "seq2" "R1"]).schedulers a =
          some { SequencerAddress := a, Status := OperatingStatus.Inactive }) ∧
      (∀ a s, a ∈ ["seq1", "seq2"] →
        (runCommitted exLimits (emptyStores exRollapps)
            [exMsgBadKey "seq1" "R1", exMsg "seq1" "R1", exMsg "seq2" "R1"]).schedulers a =
          some s →
        (s.Status = OperatingStatus.Proposer ↔ a = first)) :=
  ⟨by decide,
   exactly_one_proposer exLimits exRollapps
     [exMsgBadKey "seq1" "R1", exMsg "seq1" "R1", exMsg "seq2" "R1"] "R1"
     { RollappId := "R1", Sequencers := { Addresses := ["seq1", "seq2"] } } (by decide)⟩

/-- C14: evaluation of the handler at a request that reaches the public-key step with an
envelope whose cached value is a `*types.MsgSend`.  The call fails with the wrapped
ErrInvalidType, and the text of the error names `<nil>`, the type of the nil
`pk` that line 84 formats, not the type of the value in the envelope. -/
theorem invalid_type_text_names_nil :
    GetCachedValue (exMsgBadKey "seqA" "R2").Pubkey =
      some (CachedValue.other "*types.MsgSend") ∧
    (CreateSequencer exLimits exCtx0 (exMsgBadKey "seqA" "R2")).2 =
      .error (Error.Wrapf Error.ErrInvalidType "Expecting cryptotypes.PubKey, got <nil>") ∧
    (CreateSequencer exLimits exCtx0 (exMsgBadKey "seqA" "R2")).2 ≠
      .error (Error.Wrapf Error.ErrInvalidType
        "Expecting cryptotypes.PubKey, got *types.MsgSend") := by
  refine ⟨by decide, by decide, by decide⟩

/-- C15: whatever the outcome of a call for address A under rollapp R, the scheduler records
and the sequencer records of all addresses other than A are as before, the
rollapp directory is as before, and, when the roster of R is stored under its
own id as `SetSequencersByRollapp` stores it, the rosters of all rollapps other
than R are as before. -/
theorem frame_of_call (lim : DescriptionLimits) (ctx : Ctx) (msg : MsgCreateSequencer)
    (hkey : ∀ old, ctx.sequencersByRollapp msg.RollappId = some old →
      old.RollappId = msg.RollappId) :
    (∀ r, r ≠ msg.RollappId →
      (CreateSequencer lim ctx msg).1.sequencersByRollapp r = ctx.sequencersByRollapp r) ∧
    (∀ a, a ≠ msg.SequencerAddress →
      (CreateSequencer lim ctx msg).1.schedulers a = ctx.schedulers a) ∧
    (∀ a, a ≠ msg.SequencerAddress →
      (CreateSequencer lim ctx msg).1.sequencers a = ctx.sequencers a) ∧
    (CreateSequencer lim ctx msg).1.rollapps = ctx.rollapps := by
  rcases CreateSequencer_ctx_shape lim ctx msg with hc | ⟨ctx1, sbr, hu, hc⟩
  · rw [hc]
    exact ⟨fun _ _ => rfl, fun _ _ => rfl, fun _ _ => rfl, rfl⟩
  · have hsbr : sbr.RollappId = msg.RollappId ∧
        ∃ status, ctx1 = SetScheduler ctx
          { SequencerAddress := msg.SequencerAddress, Status := status } := by
      rcases updateSequencersList_ok ctx _ msg ctx1 sbr hu with ⟨hf, _, h1, h2⟩ | ⟨_, h1, h2⟩
      · cases hs : ctx.sequencersByRollapp msg.RollappId with
        | none => rw [GetSequencersByRollapp_none ctx _ hs] at hf; simp at hf
        | some old =>
          rw [GetSequencersByRollapp_some ctx _ old hs] at h2
          simp only at h2
          exact ⟨by rw [h2]; exact hkey old hs, _, h1⟩
      · exact ⟨by rw [h2], _, h1⟩
    obtain ⟨hid, status, h1⟩ := hsbr
    subst h1
    rcases hc with hc | ⟨sequencer, hseq, hc⟩
    · rw [hc]
      refine ⟨?_, ?_, ?_, rfl⟩
      · intro r hr; simp [SetSequencersByRollapp, SetScheduler, hid, hr]
      · intro a ha; simp [SetSequencersByRollapp, SetScheduler, ha]
      · intro a _; rfl
    · rw [hc]
      refine ⟨?_, ?_, ?_, rfl⟩
      · intro r hr; simp [SetSequencer, SetSequencersByRollapp, SetScheduler, hid, hr]
      · intro a ha; simp [SetSequencer, SetSequencersByRollapp, SetScheduler, ha]
      · intro a ha; simp [SetSequencer, SetSequencersByRollapp, SetScheduler, hseq, ha]

/-- Witness for C15 (Scenario A): the successful request of `seq2` under `R1`, made after `seq1`
registered, leaves the scheduler record and the sequencer record of `seq1`,
the roster of `R2` and the directory as they were. -/
theorem frame_of_call_witness :
    (CreateSequencer exLimits (runMsgs exLimits exCtx0 [exMsg "seq1" "R1"])
        (exMsg "seq2" "R1")).2 = .ok {} ∧
    (CreateSequencer exLimits (runMsgs exLimits exCtx0 [exMsg "seq1" "R1"])
        (exMsg "seq2" "R1")).1.sequencersByRollapp "R2" =
      (runMsgs exLimits exCtx0 [exMsg "seq1" "R1"]).sequencersByRollapp "R2" ∧
    (CreateSequencer exLimits (runMsgs exLimits exCtx0 [exMsg "seq1" "R1"])
        (exMsg "seq2" "R1")).1.schedulers "seq1" =
      (runMsgs exLimits exCtx0 [exMsg "seq1" "R1"]).schedulers "seq1" ∧
    (CreateSequencer exLimits (runMsgs exLimits exCtx0 [exMsg "seq1" "R1"])
        (exMsg "seq2" "R1")).1.sequencers "seq1" =
      (runMsgs exLimits exCtx0 [exMsg "seq1" "R1"]).sequencers "seq1" ∧
    (CreateSequencer exLimits (runMsgs exLimits exCtx0 [exMsg "seq1" "R1"])
        (exMsg "seq2" "R1")).1.rollapps =
      (runMsgs exLimits exCtx0 [exMsg "seq1" "R1"]).rollapps := by
  have hkey : ∀ old,
      (runMsgs exLimits exCtx0 [exMsg "seq1" "R1"]).sequencersByRollapp
        (exMsg "seq2" "R1").RollappId = some old →
      old.RollappId = (exMsg "seq2" "R1").RollappId := fun old h =>
    (runMsgs_invariants exLimits [exMsg "seq1" "R1"] exCtx0
      (emptyStores_invariants exRollapps).1 (emptyStores_invariants exRollapps).2).1 _ old h
  exact ⟨by decide,
    (frame_of_call exLimits (runMsgs exLimits exCtx0 [exMsg "seq1" "R1"]) (exMsg "seq2" "R1")
      hkey).1 "R2" (by decide),
    (frame_of_call exLimits (runMsgs exLimits exCtx0 [exMsg "seq1" "R1"]) (exMsg "seq2" "R1")
      hkey).2.1 "seq1" (by decide),
    (frame_of_call exLimits (runMsgs exLimits exCtx0 [exMsg "seq1" "R1"]) (exMsg "seq2" "R1")
      hkey).2.2.1 "seq1" (by decide),
    (frame_of_call exLimits (runMsgs exLimits exCtx0 [exMsg "seq1" "R1"]) (exMsg "seq2" "R1")
      hkey).2.2.2⟩

/-- C16: in every state reached from empty stores by delivering calls, successful or failing,
every roster has no duplicate address; every address of the roster of a rollapp
R has a sequencer record, stored under that address and carrying it, whose
rollapp id is R, and has a scheduler record; and every sequencer record has its
address in the roster of the record's rollapp. -/
theorem committed_stores_consistent (lim : DescriptionLimits)
    (rollapps : String → Option Rollapp) (msgs : List MsgCreateSequencer) :
    (∀ r sbr, (runCommitted lim (emptyStores rollapps) msgs).sequencersByRollapp r = some sbr →
      sbr.Sequencers.Addresses.Nodup) ∧
    (∀ r sbr a,
      (runCommitted lim (emptyStores rollapps) msgs).sequencersByRollapp r = some sbr →
      a ∈ sbr.Sequencers.Addresses →
      (∃ s, (runCommitted lim (emptyStores rollapps) msgs).sequencers a = some s ∧
        s.SequencerAddress = a ∧ s.RollappId = r) ∧
      ∃ sch, (runCommitted lim (emptyStores rollapps) msgs).schedulers a = some sch ∧
        sch.SequencerAddress = a) ∧
    (∀ a s, (runCommitted lim (emptyStores rollapps) msgs).sequencers a = some s →
      ∃ sbr,
        (runCommitted lim (emptyStores rollapps) msgs).sequencersByRollapp s.RollappId =
          some sbr ∧
        s.SequencerAddress ∈ sbr.Sequencers.Addresses) := by
  obtain ⟨_, hnd, hmem, hseq⟩ := committed_runs_consistent lim rollapps msgs
  have hkeyed : SequencersKeyed (runCommitted lim (emptyStores rollapps) msgs) :=
    SequencersKeyed_runCommitted lim msgs _ (by intro a s h; simp [emptyStores] at h)
  refine ⟨fun r sbr h => (hnd r sbr h).1, ?_, ?_⟩
  · intro r sbr a hs ha
    obtain ⟨⟨s, h1, h2⟩, h3⟩ := hmem r sbr a hs ha
    exact ⟨⟨s, h1, hkeyed a s h1, h2⟩, ⟨_, h3, rfl⟩⟩
  · intro a s hs
    obtain ⟨sbr, h1, h2⟩ := hseq a s hs
    exact ⟨sbr, h1, by rw [hkeyed a s hs]; exact h2⟩

/-- Witness for C16: after the delivered run of a failing and two successful requests under `R1`,
the roster of `R1`, `[seq1, seq2]`, has no duplicate, and `seq2` has a sequencer
record with rollapp id `R1` and a scheduler record. -/
theorem committed_stores_consistent_witness :
    (runCommitted exLimits (emptyStores exRollapps)
        [exMsgBadKey "seq1" "R1", exMsg "seq1" "R1", exMsg "seq2" "R1"]).sequencersByRollapp
        "R1" =
      some { RollappId := "R1", Sequencers := { Addresses := ["seq1", "seq2"] } } ∧
    ["seq1", "seq2"].Nodup ∧
    ((∃ s, (runCommitted exLimits (emptyStores exRollapps)
          [exMsgBadKey "seq1" "R1", exMsg "seq1" "R1", exMsg "seq2" "R1"]).sequencers "seq2" =
        some s ∧ s.SequencerAddress = "seq2" ∧ s.RollappId = "R1") ∧
      ∃ sch, (runCommitted exLimits (emptyStores exRollapps)
          [exMsgBadKey "seq1" "R1", exMsg "seq1" "R1", exMsg "seq2" "R1"]).schedulers "seq2" =
        some sch ∧ sch.SequencerAddress = "seq2") :=
  ⟨by decide,
   (committed_stores_consistent exLimits exRollapps
      [exMsgBadKey "seq1" "R1", exMsg "seq1" "R1", exMsg "seq2" "R1"]).1 "R1"
      { RollappId := "R1", Sequencers := { Addresses := ["seq1", "seq2"] } } (by decide),
   (committed_stores_consistent exLimits exRollapps
      [exMsgBadKey "seq1" "R1", exMsg "seq1" "R1", exMsg "seq2" "R1"]).2.1 "R1"
      { RollappId := "R1", Sequencers := { Addresses := ["seq1", "seq2"] } } "seq2"
      (by decide) (by decide)⟩

/-- C17: evaluation of the handler at the largest `uint64`.  Rollapp `RMax` has
`MaxSequencers = 2 ^ 64 - 1`, which line 53 converts to `-1`; with a roster of one
address the unsigned comparison finds the roster below the maximum, while the
capacity check of lines 56 to 58 fails with the over-capacity error and the
address is not appended. -/
theorem capacity_decision_differs_from_unsigned :
    exRollappsMax "RMax" =
      some { RollappId := "RMax", MaxSequencers := 2 ^ 64 - 1,
             PermissionedAddresses := { Addresses := [] } } ∧
    2 ^ 64 - 1 < 2 ^ 64 ∧
    uint64ToInt (2 ^ 64 - 1) = -1 ∧
    (runMsgs exLimits (emptyStores exRollappsMax) [exMsg "seq1" "RMax"]).sequencersByRollapp
        "RMax" =
      some { RollappId := "RMax", Sequencers := { Addresses := ["seq1"] } } ∧
    ["seq1"].length < 2 ^ 64 - 1 ∧
    capacityCheck (runMsgs exLimits (emptyStores exRollappsMax) [exMsg "seq1" "RMax"])
        (exMsg "seq2" "RMax") =
      some (Error.Wrapf Error.ErrLogic
        "rollapp id: RMax cannot have more than -1 sequencers but got: 1") ∧
    (CreateSequencer exLimits
        (runMsgs exLimits (emptyStores exRollappsMax) [exMsg "seq1" "RMax"])
        (exMsg "seq2" "RMax")).2 =
      .error (Error.Wrapf Error.ErrLogic
        "rollapp id: RMax cannot have more than -1 sequencers but got: 1") ∧
    (CreateSequencer exLimits
        (runMsgs exLimits (emptyStores exRollappsMax) [exMsg "seq1" "RMax"])
        (exMsg "seq2" "RMax")).1.sequencersByRollapp "RMax" =
      some { RollappId := "RMax", Sequencers := { Addresses := ["seq1"] } } := by
  refine ⟨by decide, by decide, by decide, by decide, by decide, by decide, by decide, by decide⟩

end Keeper
